import Mathlib

/-!
Verification development for the NTL compiler core (lexer, parser, scope
analyzer, type inferer, code generator, driver).  Every definition below is a
shallow embedding of the corresponding JavaScript function from the
repository; JavaScript `while` loops become fuel-indexed recursion, thrown
exceptions become an explicit error result, and a result that is still
pending when the fuel runs out is reported as `outOfFuel` (so a proof that a
run yields `outOfFuel` at every finite fuel is a proof of divergence of the
original loop).
-/

namespace NTL

/-- A thrown JavaScript value.  `ntl := true` errors carry the
`ntlError:true` shape produced by `lexError` / `parseError`; `ntl := false`
models an engine error such as the `TypeError` thrown by calling `.endsWith`
on a non-string. -/
structure JsErr where
  ntl : Bool
  phase : String
  message : String
  line : Nat
  col : Nat
deriving DecidableEq, Repr

/-- Outcome of running a piece of JavaScript: a value, a thrown exception, or
exhaustion of the fuel budget (the modelled loop did not finish). -/
inductive JsRes (α : Type) where
  | ok (a : α)
  | err (e : JsErr)
  | outOfFuel
deriving DecidableEq, Repr

def JsRes.map {α β : Type} (f : α → β) : JsRes α → JsRes β
  | .ok a => .ok (f a)
  | .err e => .err e
  | .outOfFuel => .outOfFuel

end NTL

namespace NTL

/-! ## Lexer (src `lexer.js`) -/

/-- Token kinds, from `TokenType` in `lexer.js`. -/
inductive TokType where
  | keyword | identifier | number | stringT | template | operator | punctuation | eof
deriving DecidableEq, Repr

/-- One part of a TEMPLATE token's value: a literal chunk or an embedded
expression source span. -/
inductive TplPart where
  | strPart (value : String)
  | exprPart (source : String)
deriving DecidableEq, Repr

/-- The dynamically typed `value` field of a token.  The lexer stores strings
for keywords/identifiers/operators/punctuation/strings, numbers for NUMBER
tokens (`int` for the integral paths, `floatRaw` keeping the cleaned source
text when a fraction or exponent is present), `bigintV` for a trailing `n`,
a part list for TEMPLATE tokens and `null` for the EOF sentinel. -/
inductive TokValue where
  | str (s : String)
  | int (i : Int)
  | bigintV (i : Int)
  | floatRaw (raw : String)
  | parts (ps : List TplPart)
  | nullV
deriving DecidableEq, Repr

structure Token where
  type : TokType
  value : TokValue
  line : Nat
  col : Nat
deriving DecidableEq, Repr

/-- `KEYWORDS` from `lexer.js`. -/
def KEYWORDS : List String :=
  ["var","val","let","const","fn","async","await",
   "if","else","unless","elif",
   "while","for","loop","in","of","break","continue",
   "return","raise","throw",
   "class","extends","new","this","super","abstract","override",
   "interface","implements","trait",
   "try","catch","finally",
   "match","case","default","when",
   "import","export","from","as",
   "true","false","null","void","undefined",
   "typeof","instanceof","keyof","infer",
   "ifset","have",
   "enum","type","alias",
   "require","ntl",
   "static","get","set","readonly","private","public","protected",
   "do","yield","spawn","select","channel",
   "macro","immutable","freeze",
   "with","using",
   "namespace","module",
   "satisfies","assert"]

/-- `MULTI_CHAR_OPS` from `lexer.js`, in source order (note that `>>` comes
before `>>>`, and `**=` appears twice). -/
def MULTI_CHAR_OPS : List String :=
  ["===","!==","<<=",">>=",
   "**=","&&=","||=","??=",
   "==","!=","<=",">=",
   "&&","||","??","|>",
   "=>","->","++","--",
   "+=","-=","*=","/=","%=","**=",
   "<<",">>",">>>","?.","...",
   "::","**","@"]

def SINGLE_OPS : List Char :=
  ['+','-','*','/','%','=','<','>','!','&','|','^','~','?',':','@','#']

def PUNCT_CHARS : List Char :=
  ['{','}','(',')',']','[',',','.',';']

/-- The lexer's mutable cursor: source characters, position, line, column. -/
structure LexState where
  src : List Char
  pos : Nat
  line : Nat
  col : Nat
deriving Repr

/-- `peek(o)`: the character at `pos+o`, or the `'\0'` sentinel past the end.
(JavaScript: `this.source[this.pos + o] || '\0'`.) -/
def peekC (st : LexState) (o : Nat) : Char :=
  st.src.getD (st.pos + o) '\x00'

/-- `advance()`: returns the character at `pos` (`none` models the JavaScript
`undefined` past the end) and the updated cursor.  Only a real `'\n'`
advances the line counter. -/
def advanceC (st : LexState) : Option Char × LexState :=
  match st.src[st.pos]? with
  | some c =>
      if c = '\n' then (some c, { st with pos := st.pos + 1, line := st.line + 1, col := 1 })
      else (some c, { st with pos := st.pos + 1, col := st.col + 1 })
  | none => (none, { st with pos := st.pos + 1, col := st.col + 1 })

/-- Appending the result of `advance()` to a JavaScript string: an
out-of-range `advance()` returns `undefined`, which string-concatenates as
the text `"undefined"`. -/
def appendAdv (s : String) (r : Option Char) : String :=
  match r with
  | some c => s.push c
  | none => s ++ "undefined"

/-- Drop the return value of `advance()`. -/
def adv1 (st : LexState) : LexState := (advanceC st).2

def isDigitC (c : Char) : Bool := '0' ≤ c ∧ c ≤ '9'
def isHexDigitC (c : Char) : Bool :=
  isDigitC c ∨ ('a' ≤ c ∧ c ≤ 'f') ∨ ('A' ≤ c ∧ c ≤ 'F')
def isIdentStartC (c : Char) : Bool :=
  ('a' ≤ c ∧ c ≤ 'z') ∨ ('A' ≤ c ∧ c ≤ 'Z') ∨ c = '_' ∨ c = '$'
def isIdentC (c : Char) : Bool := isIdentStartC c ∨ isDigitC c

/-- Value of a hexadecimal digit. -/
def hexVal (c : Char) : Nat :=
  if isDigitC c then c.toNat - '0'.toNat
  else if 'a' ≤ c ∧ c ≤ 'f' then c.toNat - 'a'.toNat + 10
  else if 'A' ≤ c ∧ c ≤ 'F' then c.toNat - 'A'.toNat + 10
  else 0

/-- `parseInt(s, 16)` on the longest valid hex prefix; `none` models `NaN`
(no valid leading digit). -/
def jsParseIntHex (s : String) : Option Nat :=
  let pre := s.data.takeWhile isHexDigitC
  if pre.isEmpty then none
  else some (pre.foldl (fun a c => a * 16 + hexVal c) 0)

def natOfDigits (base : Nat) (val : Char → Nat) (cs : List Char) : Nat :=
  cs.foldl (fun a c => a * base + val c) 0

/-- `lexError` throws an `ntlError:true` object with phase `lex`. -/
def lexErr (msg : String) (line col : Nat) : JsErr :=
  { ntl := true, phase := "lex", message := msg, line := line, col := col }

/-- The `//` and `#` comment loop:
`while (peek() !== '\n' && pos < len) advance()`. -/
def lineCommentF : Nat → LexState → JsRes LexState
  | 0, _ => .outOfFuel
  | f+1, st =>
      if peekC st 0 ≠ '\n' ∧ st.pos < st.src.length then lineCommentF f (adv1 st)
      else .ok st

/-- The `/* ... */` comment loop body:
`while (!(peek()==='*' && peek(1)==='/') && pos < len) advance()`. -/
def blockCommentF : Nat → LexState → JsRes LexState
  | 0, _ => .outOfFuel
  | f+1, st =>
      if ¬(peekC st 0 = '*' ∧ peekC st 1 = '/') ∧ st.pos < st.src.length then
        blockCommentF f (adv1 st)
      else .ok st

/-- `skipWhitespace()` from `lexer.js`. -/
def skipWsF : Nat → LexState → JsRes LexState
  | 0, _ => .outOfFuel
  | f+1, st =>
      if st.pos < st.src.length then
        let ch := peekC st 0
        if ch = ' ' ∨ ch = '\t' ∨ ch = '\r' ∨ ch = '\n' then skipWsF f (adv1 st)
        else if ch = '/' ∧ peekC st 1 = '/' then
          match lineCommentF f st with
          | .ok st' => skipWsF f st'
          | .err e => .err e
          | .outOfFuel => .outOfFuel
        else if ch = '/' ∧ peekC st 1 = '*' then
          match blockCommentF f (adv1 (adv1 st)) with
          | .ok st' =>
              let st'' := if st'.pos < st'.src.length then adv1 (adv1 st') else st'
              skipWsF f st''
          | .err e => .err e
          | .outOfFuel => .outOfFuel
        else if ch = '#' then
          match lineCommentF f st with
          | .ok st' => skipWsF f st'
          | .err e => .err e
          | .outOfFuel => .outOfFuel
        else .ok st
      else .ok st

/-- The escape table `ESC` inside `readString`. -/
def escChar (e : Option Char) : Option Char :=
  match e with
  | some 'n' => some '\n'
  | some 't' => some '\t'
  | some 'r' => some '\r'
  | some '\\' => some '\\'
  | some '"' => some '"'
  | some '\'' => some '\''
  | some '0' => some '\x00'
  | _ => none

/-- The `\u{...}` scanner inside `readString`:
`while (peek() !== '}') hex += advance();`.
The loop has no end-of-input bound: past the end `peek()` returns the
sentinel `'\0'`, which is never `'}'`, so the loop can only stop on a real
closing brace. -/
def uBraceLoopF : Nat → LexState → String → JsRes (String × LexState)
  | 0, _, _ => .outOfFuel
  | f+1, st, hex =>
      if peekC st 0 ≠ '}' then
        let (c, st') := advanceC st
        uBraceLoopF f st' (appendAdv hex c)
      else .ok (hex, st)

/-- `String.fromCodePoint(parseInt(hex,16))`; `fromCodePoint` throws a
`RangeError` on `NaN` or an out-of-range value. -/
def fromCodePointJs (hex : String) : JsRes Char :=
  match jsParseIntHex hex with
  | none => .err (JsErr.mk false "" "RangeError: Invalid code point" 0 0)
  | some v =>
      if v ≤ 0x10FFFF then .ok (Char.ofNat v)
      else .err (JsErr.mk false "" "RangeError: Invalid code point" 0 0)

/-- `String.fromCharCode(parseInt(hex,16))`: `NaN` becomes code unit 0. -/
def fromCharCodeJs (hex : String) : Char :=
  Char.ofNat ((jsParseIntHex hex).getD 0 % 65536)

/-- The embedded-expression capture loop inside `readString` (and inside
`readTemplateLiteral`), with brace-depth tracking:
the final `'}'` is consumed without being appended, every other character is
appended; the loop also stops when the input is exhausted. -/
def exprCapF : Nat → LexState → Nat → String → JsRes (String × LexState)
  | 0, _, _, _ => .outOfFuel
  | f+1, st, depth, expr =>
      if depth > 0 ∧ st.pos < st.src.length then
        let c := peekC st 0
        let depth' := if c = '{' then depth + 1 else depth
        if c = '}' then
          if depth' - 1 = 0 then .ok (expr, adv1 st)
          else
            let (cc, st') := advanceC st
            exprCapF f st' (depth' - 1) (appendAdv expr cc)
        else
          let (cc, st') := advanceC st
          exprCapF f st' depth' (appendAdv expr cc)
      else .ok (expr, st)

/-- Four fixed `advance()` calls of the `\uHHHH` escape. -/
def read4Hex (st : LexState) : String × LexState :=
  let (c1, st1) := advanceC st
  let (c2, st2) := advanceC st1
  let (c3, st3) := advanceC st2
  let (c4, st4) := advanceC st3
  (appendAdv (appendAdv (appendAdv (appendAdv "" c1) c2) c3) c4, st4)

/-- Body state for `readString`: accumulated raw text and template parts. -/
structure StrAcc where
  raw : String
  parts : List TplPart

/-- The main loop of `readString(q)` from `lexer.js`, including escape
processing (`\u{...}`, `\uHHHH`, the `ESC` table, and the fall-through that
keeps an unknown escaped character literally — there is no `\xHH` case) and
embedded `{...}` expressions for non-single-quoted strings. -/
def readStringLoopF (q : Char) (sl sc : Nat) : Nat → LexState → StrAcc → JsRes (StrAcc × LexState)
  | 0, _, _ => .outOfFuel
  | f+1, st, acc =>
      if peekC st 0 ≠ q ∧ st.pos < st.src.length then
        if peekC st 0 = '\n' then .err (lexErr "Unterminated string" sl sc)
        else if peekC st 0 = '\\' then
          let st1 := adv1 st
          let (e, st2) := advanceC st1
          if e = some 'u' then
            if peekC st2 0 = '{' then
              match uBraceLoopF f (adv1 st2) "" with
              | .ok (hex, st3) =>
                  let st4 := adv1 st3
                  match fromCodePointJs hex with
                  | .ok c => readStringLoopF q sl sc f st4 { acc with raw := acc.raw.push c }
                  | .err er => .err er
                  | .outOfFuel => .outOfFuel
              | .err er => .err er
              | .outOfFuel => .outOfFuel
            else
              let (hex, st3) := read4Hex st2
              readStringLoopF q sl sc f st3 { acc with raw := acc.raw.push (fromCharCodeJs hex) }
          else
            match escChar e with
            | some c => readStringLoopF q sl sc f st2 { acc with raw := acc.raw.push c }
            | none => readStringLoopF q sl sc f st2 { acc with raw := appendAdv acc.raw e }
        else if peekC st 0 = '{' ∧ q ≠ '\'' then
          let parts1 := if acc.raw ≠ "" then acc.parts ++ [.strPart acc.raw] else acc.parts
          match exprCapF f (adv1 st) 1 "" with
          | .ok (expr, st') =>
              readStringLoopF q sl sc f st' { raw := "", parts := parts1 ++ [.exprPart expr] }
          | .err er => .err er
          | .outOfFuel => .outOfFuel
        else
          let (c, st') := advanceC st
          readStringLoopF q sl sc f st' { acc with raw := appendAdv acc.raw c }
      else .ok (acc, st)

/-- `readString(q)` from `lexer.js`. -/
def readStringF (fuel : Nat) (st : LexState) (q : Char) : JsRes (Token × LexState) :=
  let sl := st.line
  let sc := st.col
  let st0 := adv1 st
  match readStringLoopF q sl sc fuel st0 { raw := "", parts := [] } with
  | .ok (acc, st1) =>
      if peekC st1 0 ≠ q then .err (lexErr "Unterminated string" sl sc)
      else
        let st2 := adv1 st1
        if (acc.parts.filter (fun p => match p with | .exprPart _ => true | _ => false)).length > 0 then
          let parts := if acc.raw ≠ "" then acc.parts ++ [.strPart acc.raw] else acc.parts
          .ok (⟨.template, .parts parts, sl, sc⟩, st2)
        else .ok (⟨.stringT, .str acc.raw, sl, sc⟩, st2)
  | .err e => .err e
  | .outOfFuel => .outOfFuel

/-- The escape table inside `readTemplateLiteral` (values are the literal
two-character sequences, e.g. `'n' ↦ "\n" written out`). -/
def tplEsc (e : Option Char) : Option String :=
  match e with
  | some 'n' => some "\\n"
  | some 't' => some "\\t"
  | some '`' => some "`"
  | some '$' => some "$"
  | some '\\' => some "\\\\"
  | _ => none

/-- The main loop of `readTemplateLiteral` from `lexer.js`. -/
def readTplLoopF : Nat → LexState → StrAcc → JsRes (StrAcc × LexState)
  | 0, _, _ => .outOfFuel
  | f+1, st, acc =>
      if peekC st 0 ≠ '`' ∧ st.pos < st.src.length then
        if peekC st 0 = '\\' then
          let st1 := adv1 st
          let (e, st2) := advanceC st1
          match tplEsc e with
          | some s => readTplLoopF f st2 { acc with raw := acc.raw ++ s }
          | none => readTplLoopF f st2 { acc with raw := appendAdv (acc.raw ++ "\\") e }
        else if peekC st 0 = '$' ∧ peekC st 1 = '{' then
          let parts1 := if acc.raw ≠ "" then acc.parts ++ [.strPart acc.raw] else acc.parts
          match exprCapF f (adv1 (adv1 st)) 1 "" with
          | .ok (expr, st') => readTplLoopF f st' { raw := "", parts := parts1 ++ [.exprPart expr] }
          | .err er => .err er
          | .outOfFuel => .outOfFuel
        else
          let (c, st') := advanceC st
          readTplLoopF f st' { acc with raw := appendAdv acc.raw c }
      else .ok (acc, st)

/-- `readTemplateLiteral()` from `lexer.js`. -/
def readTplF (fuel : Nat) (st : LexState) : JsRes (Token × LexState) :=
  let sl := st.line
  let sc := st.col
  match readTplLoopF fuel (adv1 st) { raw := "", parts := [] } with
  | .ok (acc, st1) =>
      if peekC st1 0 ≠ '`' then .err (lexErr "Unterminated template literal" sl sc)
      else
        let parts := if acc.raw ≠ "" then acc.parts ++ [.strPart acc.raw] else acc.parts
        .ok (⟨.template, .parts parts, sl, sc⟩, adv1 st1)
  | .err e => .err e
  | .outOfFuel => .outOfFuel

/-- A digit-run loop of `readNumber`: consume characters matching `pred`,
dropping `'_'` from the collected text. -/
def digitRunF (pred : Char → Bool) : Nat → LexState → String → JsRes (String × LexState)
  | 0, _, _ => .outOfFuel
  | f+1, st, val =>
      if pred (peekC st 0) then
        let (c, st') := advanceC st
        match c with
        | some '_' => digitRunF pred f st' val
        | _ => digitRunF pred f st' (appendAdv val c)
      else .ok (val, st)

/-- The exponent digit loop of `readNumber` (keeps every digit). -/
def expRunF : Nat → LexState → String → JsRes (String × LexState)
  | 0, _, _ => .outOfFuel
  | f+1, st, val =>
      if isDigitC (peekC st 0) then
        let (c, st') := advanceC st
        expRunF f st' (appendAdv val c)
      else .ok (val, st)

/-- `readNumber()` from `lexer.js`.  The hex/binary/octal and plain-integer
paths produce an integer value; a number with a fraction or exponent keeps
its cleaned source text (`floatRaw`), and a trailing `n` produces a bigint. -/
def readNumberF (fuel : Nat) (st : LexState) : JsRes (Token × LexState) :=
  let sl := st.line
  let sc := st.col
  if peekC st 0 = '0' ∧ (peekC st 1 = 'x' ∨ peekC st 1 = 'X') then
    match digitRunF (fun c => isHexDigitC c ∨ c = '_') fuel (adv1 (adv1 st)) "" with
    | .ok (ds, st') => .ok (⟨.number, .int (natOfDigits 16 hexVal ds.data), sl, sc⟩, st')
    | .err e => .err e
    | .outOfFuel => .outOfFuel
  else if peekC st 0 = '0' ∧ (peekC st 1 = 'b' ∨ peekC st 1 = 'B') then
    match digitRunF (fun c => c = '0' ∨ c = '1' ∨ c = '_') fuel (adv1 (adv1 st)) "" with
    | .ok (ds, st') => .ok (⟨.number, .int (natOfDigits 2 hexVal ds.data), sl, sc⟩, st')
    | .err e => .err e
    | .outOfFuel => .outOfFuel
  else if peekC st 0 = '0' ∧ (peekC st 1 = 'o' ∨ peekC st 1 = 'O') then
    match digitRunF (fun c => ('0' ≤ c ∧ c ≤ '7') ∨ c = '_') fuel (adv1 (adv1 st)) "" with
    | .ok (ds, st') => .ok (⟨.number, .int (natOfDigits 8 hexVal ds.data), sl, sc⟩, st')
    | .err e => .err e
    | .outOfFuel => .outOfFuel
  else
    match digitRunF (fun c => isDigitC c ∨ c = '_') fuel st "" with
    | .ok (ds, st1) =>
        let hasFrac := peekC st1 0 = '.' ∧ isDigitC (peekC st1 1)
        let step2 : JsRes (String × LexState) :=
          if hasFrac then
            let (c, stA) := advanceC st1
            digitRunF (fun c => isDigitC c ∨ c = '_') fuel stA (appendAdv ds c)
          else .ok (ds, st1)
        match step2 with
        | .ok (v2, st2) =>
            let hasExp := peekC st2 0 = 'e' ∨ peekC st2 0 = 'E'
            let step3 : JsRes (String × LexState) :=
              if hasExp then
                let (c, stB) := advanceC st2
                let v := appendAdv v2 c
                if peekC stB 0 = '+' ∨ peekC stB 0 = '-' then
                  expRunF fuel (adv1 stB) (appendAdv v (advanceC stB).1)
                else expRunF fuel stB v
              else .ok (v2, st2)
            match step3 with
            | .ok (v3, st3) =>
                if peekC st3 0 = 'n' then
                  if hasFrac ∨ hasExp then
                    .err (JsErr.mk false "" "SyntaxError: Cannot convert to a BigInt" sl sc)
                  else .ok (⟨.number, .bigintV (natOfDigits 10 hexVal v3.data), sl, sc⟩, adv1 st3)
                else if hasFrac ∨ hasExp then .ok (⟨.number, .floatRaw v3, sl, sc⟩, st3)
                else .ok (⟨.number, .int (natOfDigits 10 hexVal v3.data), sl, sc⟩, st3)
            | .err e => .err e
            | .outOfFuel => .outOfFuel
        | .err e => .err e
        | .outOfFuel => .outOfFuel
    | .err e => .err e
    | .outOfFuel => .outOfFuel

/-- The identifier loop of `readIdent`. -/
def identRunF : Nat → LexState → String → JsRes (String × LexState)
  | 0, _, _ => .outOfFuel
  | f+1, st, val =>
      if isIdentC (peekC st 0) then
        let (c, st') := advanceC st
        identRunF f st' (appendAdv val c)
      else .ok (val, st)

/-- `readIdent()` from `lexer.js`. -/
def readIdentF (fuel : Nat) (st : LexState) : JsRes (Token × LexState) :=
  let sl := st.line
  let sc := st.col
  match identRunF fuel st "" with
  | .ok (val, st') =>
      .ok (⟨if KEYWORDS.contains val then .keyword else .identifier, .str val, sl, sc⟩, st')
  | .err e => .err e
  | .outOfFuel => .outOfFuel

/-- Does the multi-character operator `op` match at the cursor?  (The inner
character-by-character comparison of `readOp`.) -/
def opMatches (st : LexState) (op : String) : Bool :=
  (List.range op.length).all (fun i => peekC st i = op.data.getD i ' ')

/-- `advance()` repeated `n` times. -/
def advN : Nat → LexState → LexState
  | 0, st => st
  | n+1, st => advN n (adv1 st)

/-- `readOp()` from `lexer.js`: try the multi-character table in order (the
first match wins), then the single-character set; `none` when nothing
matches. -/
def readOp (st : LexState) : Option (Token × LexState) :=
  let sl := st.line
  let sc := st.col
  match MULTI_CHAR_OPS.find? (fun op => opMatches st op) with
  | some op => some (⟨.operator, .str op, sl, sc⟩, advN op.length st)
  | none =>
      let ch := peekC st 0
      if SINGLE_OPS.contains ch then some (⟨.operator, .str (String.mk [ch]), sl, sc⟩, adv1 st)
      else none

/-- The main `tokenize()` loop from `lexer.js`. -/
def tokenizeLoopF : Nat → LexState → List Token → JsRes (List Token × LexState)
  | 0, _, _ => .outOfFuel
  | f+1, st, toks =>
      if st.pos < st.src.length then
        match skipWsF f st with
        | .ok st1 =>
            if st1.pos ≥ st1.src.length then .ok (toks, st1)
            else
              let ch := peekC st1 0
              let line := st1.line
              let col := st1.col
              if ch = '"' ∨ ch = '\'' then
                match readStringF f st1 ch with
                | .ok (t, st2) => tokenizeLoopF f st2 (toks ++ [t])
                | .err e => .err e
                | .outOfFuel => .outOfFuel
              else if ch = '`' then
                match readTplF f st1 with
                | .ok (t, st2) => tokenizeLoopF f st2 (toks ++ [t])
                | .err e => .err e
                | .outOfFuel => .outOfFuel
              else if isDigitC ch ∨ (ch = '.' ∧ isDigitC (peekC st1 1)) then
                match readNumberF f st1 with
                | .ok (t, st2) => tokenizeLoopF f st2 (toks ++ [t])
                | .err e => .err e
                | .outOfFuel => .outOfFuel
              else if isIdentStartC ch then
                match readIdentF f st1 with
                | .ok (t, st2) => tokenizeLoopF f st2 (toks ++ [t])
                | .err e => .err e
                | .outOfFuel => .outOfFuel
              else if ch = '.' ∧ peekC st1 1 = '.' ∧ peekC st1 2 = '.' then
                tokenizeLoopF f (adv1 (adv1 (adv1 st1))) (toks ++ [⟨.operator, .str "...", line, col⟩])
              else if PUNCT_CHARS.contains ch then
                tokenizeLoopF f (adv1 st1) (toks ++ [⟨.punctuation, .str (String.mk [ch]), line, col⟩])
              else
                match readOp st1 with
                | some (t, st2) => tokenizeLoopF f st2 (toks ++ [t])
                | none => .err (lexErr ("Unexpected character '" ++ String.mk [ch] ++ "'") st1.line st1.col)
        | .err e => .err e
        | .outOfFuel => .outOfFuel
      else .ok (toks, st)

/-- `tokenize(source)` from `lexer.js`: run the main loop, then append the
EOF sentinel. -/
def tokenizeF (fuel : Nat) (source : String) : JsRes (List Token) :=
  let st : LexState := { src := source.data, pos := 0, line := 1, col := 1 }
  match tokenizeLoopF fuel st [] with
  | .ok (toks, st') => .ok (toks ++ [⟨.eof, .nullV, st'.line, st'.col⟩])
  | .err e => .err e
  | .outOfFuel => .outOfFuel


/-! ## Reducible string helpers

JavaScript string methods used by the compiler, implemented over the
character list (`String.startsWith`, `endsWith`, `splitOn`, `trim` again,
so that every definition in this file evaluates by reduction).  Every
separator passed to `split` in the sources is a single character. -/

def strStartsWith (s p : String) : Bool := p.data.isPrefixOf s.data

def strEndsWith (s p : String) : Bool := p.data.isSuffixOf s.data

def strToLower (s : String) : String := String.mk (s.data.map Char.toLower)

def strSplitCharGo (sep : Char) : List Char → List Char → List String
  | [], cur => [String.mk cur.reverse]
  | c :: rest, cur =>
      if c = sep then String.mk cur.reverse :: strSplitCharGo sep rest []
      else strSplitCharGo sep rest (c :: cur)

/-- `s.split(sep)` for a one-character separator. -/
def strSplitChar (sep : Char) (s : String) : List String :=
  strSplitCharGo sep s.data []

def isJsWsC (c : Char) : Bool := c = ' ' ∨ c = '\t' ∨ c = '\n' ∨ c = '\r'

/-- `s.trim()` (the whitespace characters occurring in this code base). -/
def strTrim (s : String) : String :=
  String.mk (((s.data.dropWhile isJsWsC).reverse.dropWhile isJsWsC).reverse)

/-! ## AST (the `ASTNode` objects built by `parser.js`)

JavaScript builds untyped `ASTNode` records with a `type` tag; the single
inductive below has one constructor per node shape that the modelled subset
of the grammar can produce.  Plain helper objects that are not `ASTNode`s in
the source (parameters, object-literal properties, match patterns and cases,
destructuring patterns) are also constructors here; they carry no line/col,
matching the source.  Constructs outside the modelled subset (classes,
interfaces, enums, imports, loops, …) are rejected by the embedded parser
with a distinguished `unsupported-by-model` parse error; no theorem below
exercises them. -/

/-- Literal values appearing in match patterns. -/
inductive LitV where
  | nullL | undefL
  | boolL (b : Bool)
  | numL (v : TokValue)
  | strL (s : String)
deriving DecidableEq, Repr

inductive Node where
  | program (body : List Node) (line col : Nat)
  | varDecl (name : Option String) (typeAnn : Option String) (init : Option Node)
      (destructure : Option Node) (isConst : Bool) (line col : Nat)
  | multiVarDecl (declarations : List Node) (isConst : Bool) (line col : Nat)
  | fnDecl (name : Option String) (params : List Node) (returnType : Option String)
      (body : Node) (isAsync : Bool) (line col : Nat)
  | param (name : String) (typeAnn : Option String) (defaultVal : Option Node)
      (rest : Bool) (optional : Bool)
  | blockN (body : List Node) (line col : Nat)
  | returnStmt (value : Option Node) (line col : Nat)
  | exprStmt (e : Node) (line col : Nat)
  | breakStmt (line col : Nat)
  | continueStmt (line col : Nat)
  | matchStmt (subject : Node) (cases : List Node) (line col : Nat)
  | matchCase (patterns : List Node) (guard : Option Node) (body : Node) (isDefault : Bool)
  | patLiteral (value : LitV)
  | patBinding (name : String)
  | patWildcard
  | patEnumVal (path : String)
  | patVariant (name : String) (fields : List Node)
  | patRest (name : String)
  | patArray (items : List Node)
  | patObject (props : List Node)
  | patProp (key : Option String) (aliasN : Option String)
  | numberLit (value : TokValue) (line col : Nat)
  | stringLit (value : String) (line col : Nat)
  | boolLit (value : Bool) (line col : Nat)
  | nullLit (line col : Nat)
  | undefinedLit (line col : Nat)
  | templateLit (parts : List TplPart) (line col : Nat)
  | identifier (name : String) (line col : Nat)
  | binaryE (op : String) (left right : Node) (line col : Nat)
  | unaryE (op : String) (arg : Node) (isPre : Bool) (line col : Nat)
  | assignE (left : Node) (op : String) (right : Node) (line col : Nat)
  | ternaryE (test consequent alternate : Node) (line col : Nat)
  | pipelineE (left right : Node) (line col : Nat)
  | callE (callee : Node) (args : List Node) (optional : Bool) (line col : Nat)
  | memberE (object : Node) (propName : Option String) (propC : Option Node)
      (optional : Bool) (line col : Nat)
  | arrayLit (elements : List (Option Node)) (line col : Nat)
  | objectLit (props : List Node) (line col : Nat)
  | propP (key : String) (value : Node) (computed : Bool)
  | propShorthand (key : String)
  | propSpread (arg : Node)
  | propMethod (key : String) (params : List Node) (body : Node) (isGet isSet : Bool)
  | arrowFn (params : List Node) (body : Node) (isAsync : Bool) (line col : Nat)
  | sequenceE (exprs : List Node) (line col : Nat)
  | spreadE (arg : Node) (line col : Nat)
  | awaitE (arg : Node) (line col : Nat)
  | yieldE (arg : Node) (delegate : Bool) (line col : Nat)
  | bindingE (object : Node) (methodName : String) (line col : Nat)

/-- The `line` field of a node (0 for the plain helper objects that carry no
location in the source). -/
def nodeLine : Node → Nat
  | .program _ l _ => l
  | .varDecl _ _ _ _ _ l _ => l
  | .multiVarDecl _ _ l _ => l
  | .fnDecl _ _ _ _ _ l _ => l
  | .blockN _ l _ => l
  | .returnStmt _ l _ => l
  | .exprStmt _ l _ => l
  | .breakStmt l _ => l
  | .continueStmt l _ => l
  | .matchStmt _ _ l _ => l
  | .numberLit _ l _ => l
  | .stringLit _ l _ => l
  | .boolLit _ l _ => l
  | .nullLit l _ => l
  | .undefinedLit l _ => l
  | .templateLit _ l _ => l
  | .identifier _ l _ => l
  | .binaryE _ _ _ l _ => l
  | .unaryE _ _ _ l _ => l
  | .assignE _ _ _ l _ => l
  | .ternaryE _ _ _ l _ => l
  | .pipelineE _ _ l _ => l
  | .callE _ _ _ l _ => l
  | .memberE _ _ _ _ l _ => l
  | .arrayLit _ l _ => l
  | .objectLit _ l _ => l
  | .arrowFn _ _ _ l _ => l
  | .sequenceE _ l _ => l
  | .spreadE _ l _ => l
  | .awaitE _ l _ => l
  | .yieldE _ _ l _ => l
  | .bindingE _ _ l _ => l
  | _ => 0

/-- The `col` field of a node. -/
def nodeCol : Node → Nat
  | .program _ _ c => c
  | .varDecl _ _ _ _ _ _ c => c
  | .multiVarDecl _ _ _ c => c
  | .fnDecl _ _ _ _ _ _ c => c
  | .blockN _ _ c => c
  | .returnStmt _ _ c => c
  | .exprStmt _ _ c => c
  | .breakStmt _ c => c
  | .continueStmt _ c => c
  | .matchStmt _ _ _ c => c
  | .numberLit _ _ c => c
  | .stringLit _ _ c => c
  | .boolLit _ _ c => c
  | .nullLit _ c => c
  | .undefinedLit _ c => c
  | .templateLit _ _ c => c
  | .identifier _ _ c => c
  | .binaryE _ _ _ _ c => c
  | .unaryE _ _ _ _ c => c
  | .assignE _ _ _ _ c => c
  | .ternaryE _ _ _ _ c => c
  | .pipelineE _ _ _ c => c
  | .callE _ _ _ _ c => c
  | .memberE _ _ _ _ _ c => c
  | .arrayLit _ _ c => c
  | .objectLit _ _ c => c
  | .arrowFn _ _ _ _ c => c
  | .sequenceE _ _ c => c
  | .spreadE _ _ c => c
  | .awaitE _ _ c => c
  | .yieldE _ _ _ c => c
  | .bindingE _ _ _ c => c
  | _ => 0

/-! ## Parser (src `parser.js`) -/

/-- The parser's cursor over the token vector. -/
structure PState where
  tokens : List Token
  pos : Nat
deriving Repr

/-- The fallback token `{type:EOF, value:null}` used past the end. -/
def EOF_FALLBACK : Token := ⟨.eof, .nullV, 0, 0⟩

def peekT (ps : PState) (o : Nat) : Token :=
  ps.tokens.getD (ps.pos + o) EOF_FALLBACK

def advT (ps : PState) : Token × PState :=
  (peekT ps 0, { ps with pos := ps.pos + 1 })

/-- String coercion of a token value (used in error messages and in
`parseTypeExpr`, which concatenates `advance().value`). -/
def tokStrCoerce : TokValue → String
  | .str s => s
  | .int i => toString i
  | .bigintV i => toString i
  | .floatRaw raw => raw
  | .parts _ => "[object Object]"
  | .nullV => "null"

/-- The string stored in a keyword/identifier/operator/punctuation token. -/
def tokStr (t : Token) : String := tokStrCoerce t.value

def tokTypeName : TokType → String
  | .keyword => "KEYWORD"
  | .identifier => "IDENTIFIER"
  | .number => "NUMBER"
  | .stringT => "STRING"
  | .template => "TEMPLATE"
  | .operator => "OPERATOR"
  | .punctuation => "PUNCTUATION"
  | .eof => "EOF"

/-- `check(type, val)` with a value. -/
def checkTV (ps : PState) (ty : TokType) (v : String) : Bool :=
  (peekT ps 0).type = ty ∧ (peekT ps 0).value = .str v

/-- `check(type)` without a value. -/
def checkT (ps : PState) (ty : TokType) : Bool :=
  (peekT ps 0).type = ty

/-- `parseError(msg)` throws an `ntlError:true` object with phase `parse`
at the offending token's location (the `--> file:line:col` suffix of the
message is presentational and elided here; the structured `line`/`col`
fields carry the location). -/
def parseErr (ps : PState) (msg : String) : JsErr :=
  { ntl := true, phase := "parse", message := msg,
    line := (peekT ps 0).line, col := (peekT ps 0).col }

/-- `eat(type, val?)`. -/
def eatTok (ps : PState) (ty : TokType) (v : Option String) : JsRes (Token × PState) :=
  let t := peekT ps 0
  let hit : Bool := t.type == ty &&
    (match v with | some s => t.value == TokValue.str s | none => true)
  if hit then .ok (advT ps)
  else
    .err (parseErr ps
      ("Expected " ++ (match v with | some s => "'" ++ s ++ "'" | none => tokTypeName ty) ++
       ", got " ++ (if t.type = .eof then "end of file" else "'" ++ tokStr t ++ "'")))

/-- `eatIf(type, val)`. -/
def eatIfTok (ps : PState) (ty : TokType) (v : String) : Bool × PState :=
  if checkTV ps ty v then (true, (advT ps).2) else (false, ps)

/-- `eatSemi()`. -/
def eatSemi (ps : PState) : PState := (eatIfTok ps .punctuation ";").2

/-- `isLineEnd()`. -/
def isLineEnd (ps : PState) : Bool :=
  let t := peekT ps 0
  t.type == .eof || (t.type == .punctuation && t.value == TokValue.str ";") ||
    (ps.pos != 0 &&
      match ps.tokens[ps.pos - 1]? with
      | some prev => decide (prev.line < t.line)
      | none => false)

/-- `_lookAheadArrow()`: scan forward with bracket depth for `) =>`. -/
def lookAheadArrowF : Nat → PState → Nat → Nat → Bool
  | 0, _, _, _ => false
  | f+1, ps, i, d =>
      match ps.tokens[i]? with
      | none => false
      | some tok =>
          let d1 := if tok.value = .str "(" ∨ tok.value = .str "[" then d + 1 else d
          if tok.value = .str ")" ∨ tok.value = .str "]" then
            if d1 = 0 then
              match ps.tokens[i+1]? with
              | some nx => nx.type = .operator ∧ nx.value = .str "=>"
              | none => false
            else lookAheadArrowF f ps (i+1) (d1 - 1)
          else lookAheadArrowF f ps (i+1) d1

/-- Marker for grammar constructs outside the modelled subset: the real
parser handles them, this embedding stops with a recognizable error; no
theorem in this file exercises such a construct. -/
def unsupported (ps : PState) (what : String) : JsErr :=
  { ntl := true, phase := "parse", message := "unsupported-by-model: " ++ what,
    line := (peekT ps 0).line, col := (peekT ps 0).col }

/-- Parser actions: a state transformer over the token cursor that can throw
or run out of fuel. -/
def PM (α : Type) : Type := PState → JsRes (α × PState)

instance : Monad PM where
  pure a := fun ps => .ok (a, ps)
  bind m f := fun ps =>
    match m ps with
    | .ok (a, ps') => f a ps'
    | .err e => .err e
    | .outOfFuel => .outOfFuel

def pmThrow {α : Type} (e : JsErr) : PM α := fun _ => .err e
def pmFuelOut {α : Type} : PM α := fun _ => .outOfFuel
def pmState : PM PState := fun ps => .ok (ps, ps)
def pmPeek (o : Nat) : PM Token := fun ps => .ok (peekT ps o, ps)
def pmAdv : PM Token := fun ps => .ok (advT ps)
def pmEat (ty : TokType) (v : Option String) : PM Token := fun ps => eatTok ps ty v
def pmEatIf (ty : TokType) (v : String) : PM Bool := fun ps => .ok (eatIfTok ps ty v)
def pmEatSemi : PM Unit := fun ps => .ok ((), eatSemi ps)
def pmCheck (ty : TokType) : PM Bool := fun ps => .ok (checkT ps ty, ps)
def pmCheckV (ty : TokType) (v : String) : PM Bool := fun ps => .ok (checkTV ps ty v, ps)
def pmErr {α : Type} (msg : String) : PM α := fun ps => .err (parseErr ps msg)
def pmUnsupported {α : Type} (what : String) : PM α := fun ps => .err (unsupported ps what)

def ASSIGN_OPS : List String :=
  ["=","+=","-=","*=","/=","%=","**=","&&=","||=","??=","<<=",">>="]

def pmIsLineEnd : PM Bool := fun ps => .ok (isLineEnd ps, ps)

def pmLookAheadArrow (fuel : Nat) : PM Bool :=
  fun ps => .ok (lookAheadArrowF fuel ps ps.pos 0, ps)

mutual

/-- The `parse()` top-level loop: statements until EOF. -/
def parseTopLoopF : Nat → List Node → PM (List Node)
  | 0, _ => pmFuelOut
  | f+1, body => do
      let isEof ← pmCheck .eof
      if isEof then pure body
      else do
        let s ← parseStmtF f
        match s with
        | some st => parseTopLoopF f (body ++ [st])
        | none => parseTopLoopF f body

/-- `parseStmt()` from `parser.js`, restricted to the modelled subset of
statement keywords; every other leading keyword of the real dispatch table
yields the `unsupported-by-model` marker. -/
def parseStmtF : Nat → PM (Option Node)
  | 0 => pmFuelOut
  | f+1 => do
      pmEatSemi
      let isEof ← pmCheck .eof
      if isEof then pure none
      else do
        let t ← pmPeek 0
        if t.type = .keyword then
          match tokStr t with
          | "var" | "let" => some <$> parseVarDeclF f false
          | "val" | "const" => some <$> parseVarDeclF f true
          | "fn" => some <$> parseFnDeclF f false
          | "async" => do
              let t1 ← pmPeek 1
              if t1.value = .str "fn" then do
                let _ ← pmAdv
                some <$> parseFnDeclF f true
              else some <$> parseExprStatementF f
          | "return" => some <$> parseReturnF f
          | "break" => do
              let _ ← pmAdv; pmEatSemi
              pure (some (Node.breakStmt t.line t.col))
          | "continue" => do
              let _ ← pmAdv; pmEatSemi
              pure (some (Node.continueStmt t.line t.col))
          | "class" | "abstract" | "interface" | "trait" | "macro" | "type" | "alias"
          | "enum" | "if" | "unless" | "while" | "do" | "for" | "loop" | "throw"
          | "raise" | "try" | "match" | "import" | "export" | "require" | "spawn"
          | "select" | "immutable" | "namespace" | "with" | "ifset" | "using" =>
              pmUnsupported ("stmt keyword " ++ tokStr t)
          | _ => some <$> parseExprStatementF f
        else some <$> parseExprStatementF f

/-- The do-while body of `parseVarDecl`: one declaration record per
iteration.  Each record is kept as a `varDecl` node with zero line/col,
mirroring the plain `{name,typeAnn,init,destructure,isConst}` object. -/
def parseVarDeclItemsF : Nat → Bool → List Node → PM (List Node)
  | 0, _, _ => pmFuelOut
  | f+1, isConst, acc => do
      let isBrace ← pmCheckV .punctuation "\x7b"
      let isBracket ← pmCheckV .punctuation "["
      if isBrace ∨ isBracket then pmUnsupported "destructuring declaration"
      else do
        let isIdent ← pmCheck .identifier
        let isKw ← pmCheck .keyword
        if ¬(isIdent ∨ isKw) then pmErr "Expected parameter name"
        else do
          let nameTok ← pmAdv
          let hasColon ← pmCheckV .operator ":"
          let typeAnn ←
            if hasColon then do
              let _ ← pmAdv
              some <$> parseTypeExprF f
            else pure none
          let hasEq ← pmEatIf .operator "="
          let init ← if hasEq then some <$> parseExprF f else pure none
          let acc' := acc ++ [Node.varDecl (some (tokStr nameTok)) typeAnn init none isConst 0 0]
          let more ← pmEatIf .punctuation ","
          if more then parseVarDeclItemsF f isConst acc' else pure acc'

/-- `parseVarDecl(isConst)` from `parser.js` (without the destructuring
branches, which are outside the modelled subset). -/
def parseVarDeclF : Nat → Bool → PM Node
  | 0, _ => pmFuelOut
  | f+1, isConst => do
      let t ← pmAdv
      let ds ← parseVarDeclItemsF f isConst []
      pmEatSemi
      match ds with
      | [Node.varDecl n ty init de c _ _] => pure (Node.varDecl n ty init de c t.line t.col)
      | _ => pure (Node.multiVarDecl ds isConst t.line t.col)

/-- The parameter loop of the function-type branch of `parseTypeExpr`.  The
source collects a parameter name but never pushes it, so the printed
parameter list is always empty; the cursor movement is mirrored exactly. -/
def ftParamsLoopF : Nat → PM Unit
  | 0 => pmFuelOut
  | f+1 => do
      let closed ← pmCheckV .punctuation ")"
      if closed then pure ()
      else do
        let isIdent ← pmCheck .identifier
        let isKw ← pmCheck .keyword
        if isIdent ∨ isKw then do
          let _ ← pmAdv
          pure ()
        else pure ()
        let hasColon ← pmEatIf .operator ":"
        if hasColon then do
          let _ ← parseTypeExprF f
          pure ()
        else pure ()
        let _ ← pmEatIf .punctuation ","
        ftParamsLoopF f

/-- The object-type loop of `parseTypeExpr`. -/
def objTypeLoopF : Nat → String → PM String
  | 0, _ => pmFuelOut
  | f+1, s => do
      let closed ← pmCheckV .punctuation "\x7d"
      let isEof ← pmCheck .eof
      if ¬closed ∧ ¬isEof then do
        let isIdent ← pmCheck .identifier
        let isKw ← pmCheck .keyword
        let k ← if isIdent ∨ isKw then tokStr <$> pmAdv else pure ""
        let hasOpt ← pmEatIf .operator "?"
        let opt := if hasOpt then "?" else ""
        let _ ← pmEat .operator (some ":")
        let vt ← parseTypeExprF f
        let _ ← pmEatIf .punctuation ","
        let _ ← pmEatIf .punctuation ";"
        objTypeLoopF f (s ++ k ++ opt ++ ":" ++ vt ++ ";")
      else pure s

/-- The depth-tracked generic-argument capture of `parseTypeExpr`. -/
def genericArgsLoopF : Nat → Nat → String → PM String
  | 0, _, _ => pmFuelOut
  | f+1, d, inner => do
      let isEof ← pmCheck .eof
      if d > 0 ∧ ¬isEof then do
        let tv ← pmPeek 0
        let d1 := if tv.value = .str "<" then d + 1 else d
        if tv.value = .str ">" then
          if d1 - 1 = 0 then do
            let _ ← pmAdv
            pure inner
          else do
            let tok ← pmAdv
            genericArgsLoopF f (d1 - 1) (inner ++ tokStrCoerce tok.value)
        else do
          let tok ← pmAdv
          genericArgsLoopF f d1 (inner ++ tokStrCoerce tok.value)
      else pure inner

/-- The main qualified-name loop of `parseTypeExpr`. -/
def typeBaseLoopF : Nat → String → PM String
  | 0, _ => pmFuelOut
  | f+1, base => do
      let isIdent ← pmCheck .identifier
      let isKw ← pmCheck .keyword
      let isBar ← pmCheckV .operator "|"
      let isAmp ← pmCheckV .operator "&"
      if isIdent ∨ isKw ∨ isBar ∨ isAmp then
        if isBar ∨ isAmp then pure base
        else do
          let tok ← pmAdv
          let base1 := base ++ tokStr tok
          let hasLt ← pmCheckV .operator "<"
          let base2 ←
            if hasLt then do
              let _ ← pmAdv
              let inner ← genericArgsLoopF f 1 ""
              pure (base1 ++ "<" ++ inner ++ ">")
            else pure base1
          let hasBr ← pmCheckV .punctuation "["
          let t1 ← pmPeek 1
          let base3 ←
            if hasBr ∧ t1.value = .str "]" then do
              let _ ← pmAdv
              let _ ← pmAdv
              pure (base2 ++ "[]")
            else pure base2
          let isDot ← pmCheckV .operator "."
          let t1' ← pmPeek 1
          if ¬isDot ∨ t1'.value = .str "." then pure base3
          else do
            let _ ← pmAdv
            typeBaseLoopF f (base3 ++ ".")
      else pure base

/-- The trailing union/intersection loop of `parseTypeExpr`. -/
def typeUnionLoopF : Nat → String → PM String
  | 0, _ => pmFuelOut
  | f+1, base => do
      let isBar ← pmCheckV .operator "|"
      let isAmp ← pmCheckV .operator "&"
      if isBar ∨ isAmp then do
        let tok ← pmAdv
        let rhs ← parseTypeExprF f
        typeUnionLoopF f (base ++ " " ++ tokStr tok ++ " " ++ rhs)
      else pure base

/-- `parseTypeExpr()` from `parser.js`: the type is collected as a printed
string. -/
def parseTypeExprF : Nat → PM String
  | 0 => pmFuelOut
  | f+1 => do
      let isParen ← pmCheckV .punctuation "("
      if isParen then do
        let _ ← pmAdv
        ftParamsLoopF f
        let _ ← pmEat .punctuation (some ")")
        let a1 ← pmEatIf .operator "=>"
        let a2 ← if a1 then pure false else pmEatIf .operator "->"
        let rt ← if a1 ∨ a2 then some <$> parseTypeExprF f else pure none
        pure ("() => " ++ rt.getD "any")
      else do
        let isBrace ← pmCheckV .punctuation "\x7b"
        if isBrace then do
          let _ ← pmAdv
          let s ← objTypeLoopF f "\x7b"
          let _ ← pmEat .punctuation (some "\x7d")
          pure (s ++ "\x7d")
        else do
          let isTypeof ← pmCheckV .keyword "typeof"
          if isTypeof then do
            let _ ← pmAdv
            (fun s => "typeof " ++ s) <$> parseTypeExprF f
          else do
            let isKeyof ← pmCheckV .keyword "keyof"
            if isKeyof then do
              let _ ← pmAdv
              (fun s => "keyof " ++ s) <$> parseTypeExprF f
            else do
              let isInfer ← pmCheckV .keyword "infer"
              if isInfer then do
                let _ ← pmAdv
                let tok ← pmEat .identifier none
                pure ("infer " ++ tokStr tok)
              else do
                let base ← typeBaseLoopF f ""
                let hasOpt ← pmEatIf .operator "?"
                let base1 := if hasOpt then base ++ "?" else base
                let base2 ← typeUnionLoopF f base1
                pure (if base2 = "" then "any" else base2)

/-- The loop of `parseTypeParams` (type-parameter lists are parsed for
their cursor effect; nothing downstream in the modelled subset reads them,
matching the code generator and analyzers, which ignore `typeParams`). -/
def typeParamsLoopF : Nat → PM Unit
  | 0 => pmFuelOut
  | f+1 => do
      let isGt ← pmCheckV .operator ">"
      let isEof ← pmCheck .eof
      if ¬isGt ∧ ¬isEof then do
        let isIdent ← pmCheck .identifier
        let isKw ← pmCheck .keyword
        if isIdent ∨ isKw then do
          let _ ← pmAdv
          pure ()
        else pure ()
        let hasExt ← pmEatIf .keyword "extends"
        if hasExt then do
          let _ ← parseTypeExprF f
          pure ()
        else pure ()
        let hasEq ← pmEatIf .operator "="
        if hasEq then do
          let _ ← parseTypeExprF f
          pure ()
        else pure ()
        let _ ← pmEatIf .punctuation ","
        typeParamsLoopF f
      else pure ()

/-- `parseTypeParams()` from `parser.js`. -/
def parseTypeParamsF : Nat → PM Unit
  | 0 => pmFuelOut
  | f+1 => do
      let hasLt ← pmCheckV .operator "<"
      if ¬hasLt then pure ()
      else do
        let _ ← pmAdv
        typeParamsLoopF f
        let _ ← pmEatIf .operator ">"
        pure ()

/-- The parameter loop of `parseFnParams`. -/
def fnParamsLoopF : Nat → List Node → PM (List Node)
  | 0, _ => pmFuelOut
  | f+1, acc => do
      let closed ← pmCheckV .punctuation ")"
      if closed then pure acc
      else do
        let m1 ← pmCheckV .keyword "readonly"
        let m2 ← pmCheckV .keyword "private"
        let m3 ← pmCheckV .keyword "public"
        let m4 ← pmCheckV .keyword "protected"
        if m1 ∨ m2 ∨ m3 ∨ m4 then do
          let _ ← pmAdv
          pure ()
        else pure ()
        let isRest ← pmCheckV .operator "..."
        if isRest then do
          let _ ← pmAdv
          pure ()
        else pure ()
        let nameTok ← pmEat .identifier none
        let optional ← pmEatIf .operator "?"
        let hasColon ← pmCheckV .operator ":"
        let typeAnn ←
          if hasColon then do
            let _ ← pmAdv
            some <$> parseTypeExprF f
          else pure none
        let hasEq ← if isRest then pure false else pmEatIf .operator "="
        let defaultVal ← if hasEq then some <$> parseExprF f else pure none
        let acc' := acc ++ [Node.param (tokStr nameTok) typeAnn defaultVal isRest optional]
        let closed' ← pmCheckV .punctuation ")"
        if ¬closed' then do
          let _ ← pmEat .punctuation (some ",")
          fnParamsLoopF f acc'
        else fnParamsLoopF f acc'

/-- `parseFnParams()` from `parser.js`. -/
def parseFnParamsF : Nat → PM (List Node)
  | 0 => pmFuelOut
  | f+1 => do
      let _ ← pmEat .punctuation (some "(")
      let params ← fnParamsLoopF f []
      let _ ← pmEat .punctuation (some ")")
      pure params

/-- `parseFnDecl(isAsync)` from `parser.js`. -/
def parseFnDeclF : Nat → Bool → PM Node
  | 0, _ => pmFuelOut
  | f+1, isAsync => do
      let t ← pmPeek 0
      let _ ← pmEat .keyword (some "fn")
      let isIdent ← pmCheck .identifier
      let isKw ← pmCheck .keyword
      let name ← if isIdent ∨ isKw then (some ∘ tokStr) <$> pmAdv else pure none
      parseTypeParamsF f
      let params ← parseFnParamsF f
      let a1 ← pmEatIf .operator "->"
      let a2 ← if a1 then pure false else pmEatIf .operator ":"
      let returnType ← if a1 ∨ a2 then some <$> parseTypeExprF f else pure none
      let body ← parseBlockF f
      pure (Node.fnDecl name params returnType body isAsync t.line t.col)

/-- The statement loop of `parseBlock`. -/
def blockLoopF : Nat → List Node → PM (List Node)
  | 0, _ => pmFuelOut
  | f+1, acc => do
      let closed ← pmCheckV .punctuation "\x7d"
      if closed then pure acc
      else do
        let s ← parseStmtF f
        match s with
        | some st => blockLoopF f (acc ++ [st])
        | none => blockLoopF f acc

/-- `parseBlock()` from `parser.js`. -/
def parseBlockF : Nat → PM Node
  | 0 => pmFuelOut
  | f+1 => do
      let t ← pmPeek 0
      let _ ← pmEat .punctuation (some "\x7b")
      let body ← blockLoopF f []
      let _ ← pmEat .punctuation (some "\x7d")
      pure (Node.blockN body t.line t.col)

/-- `parseReturn()` from `parser.js`. -/
def parseReturnF : Nat → PM Node
  | 0 => pmFuelOut
  | f+1 => do
      let t ← pmAdv
      let lineEnd ← pmIsLineEnd
      let isBrace ← pmCheckV .punctuation "\x7d"
      let isEof ← pmCheck .eof
      let value ←
        if ¬lineEnd ∧ ¬isBrace ∧ ¬isEof then some <$> parseExprF f else pure none
      pmEatSemi
      pure (Node.returnStmt value t.line t.col)

/-- `parseExprStatement()` from `parser.js`.  Decorator prefixes are outside
the modelled subset (`parseDecorators` returns an empty list whenever the
next token is not `@`, which is mirrored by the guard). -/
def parseExprStatementF : Nat → PM Node
  | 0 => pmFuelOut
  | f+1 => do
      let t ← pmPeek 0
      let isAt ← pmCheckV .operator "@"
      if isAt then pmUnsupported "decorator"
      else do
        let e ← parseExprF f
        pmEatSemi
        pure (Node.exprStmt e t.line t.col)

/-- `parseExpr()` from `parser.js`. -/
def parseExprF : Nat → PM Node
  | 0 => pmFuelOut
  | f+1 => parseAssignF f

/-- `parseAssign()` from `parser.js`. -/
def parseAssignF : Nat → PM Node
  | 0 => pmFuelOut
  | f+1 => do
      let left ← parseTernaryF f
      let t ← pmPeek 0
      if ASSIGN_OPS.contains (tokStrCoerce t.value) && t.type == TokType.operator &&
          (match t.value with | TokValue.str _ => true | _ => false) then do
        let opTok ← pmAdv
        let right ← parseAssignF f
        pure (Node.assignE left (tokStr opTok) right (nodeLine left) (nodeCol left))
      else pure left

/-- `parseTernary()` from `parser.js`. -/
def parseTernaryF : Nat → PM Node
  | 0 => pmFuelOut
  | f+1 => do
      let test ← parsePipelineF f
      let isQ ← pmCheckV .operator "?"
      let isQDot ← pmCheckV .operator "?."
      if isQ ∧ ¬isQDot then do
        let _ ← pmAdv
        let consequent ← parseExprF f
        let _ ← pmEat .operator (some ":")
        let alternate ← parseExprF f
        pure (Node.ternaryE test consequent alternate (nodeLine test) (nodeCol test))
      else pure test

def parsePipelineLoopF : Nat → Node → PM Node
  | 0, _ => pmFuelOut
  | f+1, left => do
      let isPipe ← pmCheckV .operator "|>"
      if isPipe then do
        let _ ← pmAdv
        let right ← parseNullCoF f
        parsePipelineLoopF f (Node.pipelineE left right (nodeLine left) (nodeCol left))
      else pure left

/-- `parsePipeline()` from `parser.js`. -/
def parsePipelineF : Nat → PM Node
  | 0 => pmFuelOut
  | f+1 => do
      let left ← parseNullCoF f
      parsePipelineLoopF f left

def parseNullCoLoopF : Nat → Node → PM Node
  | 0, _ => pmFuelOut
  | f+1, left => do
      let isQQ ← pmCheckV .operator "??"
      if isQQ then do
        let t ← pmAdv
        let right ← parseOrF f
        parseNullCoLoopF f (Node.binaryE "??" left right t.line t.col)
      else pure left

/-- `parseNullCoalesce()` from `parser.js`. -/
def parseNullCoF : Nat → PM Node
  | 0 => pmFuelOut
  | f+1 => do
      let left ← parseOrF f
      parseNullCoLoopF f left

def parseOrLoopF : Nat → Node → PM Node
  | 0, _ => pmFuelOut
  | f+1, left => do
      let isOr ← pmCheckV .operator "||"
      if isOr then do
        let opTok ← pmAdv
        let right ← parseAndF f
        parseOrLoopF f (Node.binaryE (tokStr opTok) left right (nodeLine left) (nodeCol left))
      else pure left

/-- `parseOr()` from `parser.js`. -/
def parseOrF : Nat → PM Node
  | 0 => pmFuelOut
  | f+1 => do
      let left ← parseAndF f
      parseOrLoopF f left

def parseAndLoopF : Nat → Node → PM Node
  | 0, _ => pmFuelOut
  | f+1, left => do
      let isAnd ← pmCheckV .operator "&&"
      if isAnd then do
        let opTok ← pmAdv
        let right ← parseBitOrF f
        parseAndLoopF f (Node.binaryE (tokStr opTok) left right (nodeLine left) (nodeCol left))
      else pure left

/-- `parseAnd()` from `parser.js`. -/
def parseAndF : Nat → PM Node
  | 0 => pmFuelOut
  | f+1 => do
      let left ← parseBitOrF f
      parseAndLoopF f left

def parseBitOrLoopF : Nat → Node → PM Node
  | 0, _ => pmFuelOut
  | f+1, left => do
      let isBar ← pmCheckV .operator "|"
      if isBar then do
        let t1 ← pmPeek 1
        if t1.value = .str "|" ∨ t1.value = .str ">" then pure left
        else do
          let _ ← pmAdv
          let right ← parseBitXorF f
          parseBitOrLoopF f (Node.binaryE "|" left right (nodeLine left) (nodeCol left))
      else pure left

/-- `parseBitOr()` from `parser.js` (with the lookahead that avoids eating
`||` and `|>`). -/
def parseBitOrF : Nat → PM Node
  | 0 => pmFuelOut
  | f+1 => do
      let left ← parseBitXorF f
      parseBitOrLoopF f left

def parseBitXorLoopF : Nat → Node → PM Node
  | 0, _ => pmFuelOut
  | f+1, left => do
      let isCaret ← pmCheckV .operator "^"
      if isCaret then do
        let _ ← pmAdv
        let right ← parseBitAndF f
        parseBitXorLoopF f (Node.binaryE "^" left right (nodeLine left) (nodeCol left))
      else pure left

/-- `parseBitXor()` from `parser.js`. -/
def parseBitXorF : Nat → PM Node
  | 0 => pmFuelOut
  | f+1 => do
      let left ← parseBitAndF f
      parseBitXorLoopF f left

def parseBitAndLoopF : Nat → Node → PM Node
  | 0, _ => pmFuelOut
  | f+1, left => do
      let isAmp ← pmCheckV .operator "&"
      if isAmp then do
        let t1 ← pmPeek 1
        if t1.value = .str "&" then pure left
        else do
          let _ ← pmAdv
          let right ← parseEqualityF f
          parseBitAndLoopF f (Node.binaryE "&" left right (nodeLine left) (nodeCol left))
      else pure left

/-- `parseBitAnd()` from `parser.js`. -/
def parseBitAndF : Nat → PM Node
  | 0 => pmFuelOut
  | f+1 => do
      let left ← parseEqualityF f
      parseBitAndLoopF f left

def parseEqualityLoopF : Nat → Node → PM Node
  | 0, _ => pmFuelOut
  | f+1, left => do
      let t ← pmPeek 0
      if ["===","!==","==","!="].contains (tokStrCoerce t.value) && t.type == TokType.operator &&
          (match t.value with | TokValue.str _ => true | _ => false) then do
        let opTok ← pmAdv
        let right ← parseRelationalF f
        parseEqualityLoopF f (Node.binaryE (tokStr opTok) left right (nodeLine left) (nodeCol left))
      else pure left

/-- `parseEquality()` from `parser.js`. -/
def parseEqualityF : Nat → PM Node
  | 0 => pmFuelOut
  | f+1 => do
      let left ← parseRelationalF f
      parseEqualityLoopF f left

def parseRelationalLoopF : Nat → Node → PM Node
  | 0, _ => pmFuelOut
  | f+1, left => do
      let t ← pmPeek 0
      let opCase : Bool := ["<",">","<=",">="].contains (tokStrCoerce t.value) &&
          t.type == TokType.operator &&
          (match t.value with | TokValue.str _ => true | _ => false)
      let kwCase : Bool := t.type == TokType.keyword &&
          (t.value == TokValue.str "instanceof" || t.value == TokValue.str "in" ||
           t.value == TokValue.str "of")
      if opCase || kwCase then do
        let opTok ← pmAdv
        let right ← parseShiftF f
        parseRelationalLoopF f (Node.binaryE (tokStr opTok) left right (nodeLine left) (nodeCol left))
      else pure left

/-- `parseRelational()` from `parser.js` (the `_inForInit` flag is always
false in the modelled subset, which has no `for` statement). -/
def parseRelationalF : Nat → PM Node
  | 0 => pmFuelOut
  | f+1 => do
      let left ← parseShiftF f
      parseRelationalLoopF f left

def parseShiftLoopF : Nat → Node → PM Node
  | 0, _ => pmFuelOut
  | f+1, left => do
      let t ← pmPeek 0
      if ["<<",">>",">>>"].contains (tokStrCoerce t.value) &&
          (match t.value with | TokValue.str _ => true | _ => false) then do
        let opTok ← pmAdv
        let right ← parseAddF f
        parseShiftLoopF f (Node.binaryE (tokStr opTok) left right (nodeLine left) (nodeCol left))
      else pure left

/-- `parseShift()` from `parser.js` (the source checks only the token's
value here, not its type). -/
def parseShiftF : Nat → PM Node
  | 0 => pmFuelOut
  | f+1 => do
      let left ← parseAddF f
      parseShiftLoopF f left

def parseAddLoopF : Nat → Node → PM Node
  | 0, _ => pmFuelOut
  | f+1, left => do
      let t ← pmPeek 0
      if ["+","-"].contains (tokStrCoerce t.value) && t.type == TokType.operator &&
          (match t.value with | TokValue.str _ => true | _ => false) then do
        let opTok ← pmAdv
        let right ← parseMulF f
        parseAddLoopF f (Node.binaryE (tokStr opTok) left right (nodeLine left) (nodeCol left))
      else pure left

/-- `parseAdd()` from `parser.js`. -/
def parseAddF : Nat → PM Node
  | 0 => pmFuelOut
  | f+1 => do
      let left ← parseMulF f
      parseAddLoopF f left

def parseMulLoopF : Nat → Node → PM Node
  | 0, _ => pmFuelOut
  | f+1, left => do
      let t ← pmPeek 0
      if ["*","/","%","**"].contains (tokStrCoerce t.value) && t.type == TokType.operator &&
          (match t.value with | TokValue.str _ => true | _ => false) then do
        let opTok ← pmAdv
        let right ← parseUnaryF f
        parseMulLoopF f (Node.binaryE (tokStr opTok) left right (nodeLine left) (nodeCol left))
      else pure left

/-- `parseMul()` from `parser.js`. -/
def parseMulF : Nat → PM Node
  | 0 => pmFuelOut
  | f+1 => do
      let left ← parseUnaryF f
      parseMulLoopF f left

/-- `parseUnary()` from `parser.js` (the `as` and `satisfies` postfix forms
are outside the modelled subset). -/
def parseUnaryF : Nat → PM Node
  | 0 => pmFuelOut
  | f+1 => do
      let t ← pmPeek 0
      if t.type = .operator ∧ ["!","~","-","+"].contains (tokStrCoerce t.value) then do
        let _ ← pmAdv
        let arg ← parseUnaryF f
        pure (Node.unaryE (tokStr t) arg true t.line t.col)
      else if t.type = .operator ∧ (t.value = .str "++" ∨ t.value = .str "--") then do
        let _ ← pmAdv
        let arg ← parsePostfixF f
        pure (Node.unaryE (tokStr t) arg true t.line t.col)
      else if t.type = .keyword ∧ t.value = .str "typeof" then do
        let _ ← pmAdv
        let arg ← parseUnaryF f
        pure (Node.unaryE "typeof" arg true t.line t.col)
      else if t.type = .keyword ∧ t.value = .str "await" then do
        let _ ← pmAdv
        let arg ← parseUnaryF f
        pure (Node.awaitE arg t.line t.col)
      else if t.type = .keyword ∧ t.value = .str "yield" then do
        let _ ← pmAdv
        let delegate ← pmEatIf .operator "*"
        let arg ← parseUnaryF f
        pure (Node.yieldE arg delegate t.line t.col)
      else if t.type = .operator ∧ t.value = .str "..." then do
        let _ ← pmAdv
        let arg ← parseUnaryF f
        pure (Node.spreadE arg t.line t.col)
      else do
        let expr ← parsePostfixF f
        let t2 ← pmPeek 0
        if t2.value = .str "++" ∨ t2.value = .str "--" then do
          let opTok ← pmAdv
          pure (Node.unaryE (tokStr opTok) expr false (nodeLine expr) (nodeCol expr))
        else if t2.type = .keyword ∧ (t2.value = .str "instanceof" ∨ t2.value = .str "as") then
          if t2.value = .str "as" then pmUnsupported "as-cast"
          else do
            let opTok ← pmAdv
            let right ← parsePostfixF f
            pure (Node.binaryE (tokStr opTok) expr right (nodeLine expr) (nodeCol expr))
        else do
          let isSat ← pmCheckV .keyword "satisfies"
          if isSat then pmUnsupported "satisfies"
          else pure expr

/-- The argument loop of a call: expressions until `)`, commas optional. -/
def callArgsLoopF : Nat → List Node → PM (List Node)
  | 0, _ => pmFuelOut
  | f+1, acc => do
      let closed ← pmCheckV .punctuation ")"
      if closed then pure acc
      else do
        let a ← parseExprF f
        let _ ← pmEatIf .punctuation ","
        callArgsLoopF f (acc ++ [a])

/-- The postfix chain loop of `parsePostfix`. -/
def postfixLoopF : Nat → Node → PM Node
  | 0, _ => pmFuelOut
  | f+1, expr => do
      let t ← pmPeek 0
      if t.type = .punctuation ∧ t.value = .str "(" then do
        let _ ← pmAdv
        let args ← callArgsLoopF f []
        let _ ← pmEat .punctuation (some ")")
        postfixLoopF f (Node.callE expr args false (nodeLine expr) (nodeCol expr))
      else do
        let t1 ← pmPeek 1
        if t.type = .operator ∧ t.value = .str "?." ∧ t1.value = .str "(" then do
          let _ ← pmAdv
          let _ ← pmAdv
          let args ← callArgsLoopF f []
          let _ ← pmEat .punctuation (some ")")
          postfixLoopF f (Node.callE expr args true (nodeLine expr) (nodeCol expr))
        else if t.type = .punctuation ∧ t.value = .str "[" then do
          let _ ← pmAdv
          let p ← parseExprF f
          let _ ← pmEat .punctuation (some "]")
          postfixLoopF f (Node.memberE expr none (some p) false (nodeLine expr) (nodeCol expr))
        else if t.type = .operator ∧ t.value = .str "?." ∧ t1.value = .str "[" then do
          let _ ← pmAdv
          let _ ← pmAdv
          let p ← parseExprF f
          let _ ← pmEat .punctuation (some "]")
          postfixLoopF f (Node.memberE expr none (some p) true (nodeLine expr) (nodeCol expr))
        else if t.type = .punctuation ∧ t.value = .str "." ∧ t1.value ≠ .str "." then do
          let _ ← pmAdv
          let isIdent ← pmCheck .identifier
          let isKw ← pmCheck .keyword
          if isIdent ∨ isKw then do
            let p ← pmAdv
            postfixLoopF f (Node.memberE expr (some (tokStr p)) none false (nodeLine expr) (nodeCol expr))
          else pmErr "Expected property"
        else if t.type = .operator ∧ t.value = .str "?." ∧ t1.type = .identifier then do
          let _ ← pmAdv
          let isIdent ← pmCheck .identifier
          let isKw ← pmCheck .keyword
          if isIdent ∨ isKw then do
            let p ← pmAdv
            postfixLoopF f (Node.memberE expr (some (tokStr p)) none true (nodeLine expr) (nodeCol expr))
          else pmErr "Expected property"
        else if t.type = .operator ∧ t.value = .str "::" ∧ t1.type = .identifier then do
          let _ ← pmAdv
          let m ← pmAdv
          postfixLoopF f (Node.bindingE expr (tokStr m) (nodeLine expr) (nodeCol expr))
        else pure expr

/-- `parsePostfix()` from `parser.js`. -/
def parsePostfixF : Nat → PM Node
  | 0 => pmFuelOut
  | f+1 => do
      let expr ← parsePrimaryF f
      postfixLoopF f expr

/-- The element loop of `parseArrayLit` (a leading comma stores a hole). -/
def arrayLitLoopF : Nat → List (Option Node) → PM (List (Option Node))
  | 0, _ => pmFuelOut
  | f+1, acc => do
      let closed ← pmCheckV .punctuation "]"
      if closed then pure acc
      else do
        let isComma ← pmCheckV .punctuation ","
        if isComma then do
          let _ ← pmAdv
          arrayLitLoopF f (acc ++ [none])
        else do
          let e ← parseExprF f
          let closed' ← pmCheckV .punctuation "]"
          if ¬closed' then do
            let _ ← pmEat .punctuation (some ",")
            arrayLitLoopF f (acc ++ [some e])
          else arrayLitLoopF f (acc ++ [some e])

/-- `parseArrayLit()` from `parser.js`. -/
def parseArrayLitF : Nat → PM Node
  | 0 => pmFuelOut
  | f+1 => do
      let t ← pmEat .punctuation (some "[")
      let els ← arrayLitLoopF f []
      let _ ← pmEat .punctuation (some "]")
      pure (Node.arrayLit els t.line t.col)

/-- The property loop of `parseObjectLit`. -/
def objectLitLoopF : Nat → List Node → PM (List Node)
  | 0, _ => pmFuelOut
  | f+1, acc => do
      let closed ← pmCheckV .punctuation "\x7d"
      if closed then pure acc
      else do
        let isSpread ← pmCheckV .operator "..."
        if isSpread then do
          let _ ← pmAdv
          let arg ← parseExprF f
          let _ ← pmEatIf .punctuation ","
          objectLitLoopF f (acc ++ [Node.propSpread arg])
        else do
          let isBracket ← pmCheckV .punctuation "["
          if isBracket then pmUnsupported "computed object key"
          else do
            let isIdent ← pmCheck .identifier
            let isKw ← pmCheck .keyword
            let isStr ← pmCheck .stringT
            if ¬(isIdent ∨ isKw ∨ isStr) then pmErr "Expected key"
            else do
              let keyTok ← pmAdv
              let key := tokStr keyTok
              let nextIsIdent ← pmCheck .identifier
              let isGet := key = "get" ∧ nextIsIdent
              let isSet := key = "set" ∧ nextIsIdent
              if isGet ∨ isSet then do
                let mTok ← pmAdv
                let params ← parseFnParamsF f
                let body ← parseBlockF f
                let _ ← pmEatIf .punctuation ","
                objectLitLoopF f (acc ++ [Node.propMethod (tokStr mTok) params body isGet isSet])
              else do
                let isParen ← pmCheckV .punctuation "("
                if isParen then do
                  let params ← parseFnParamsF f
                  let body ← parseBlockF f
                  let _ ← pmEatIf .punctuation ","
                  objectLitLoopF f (acc ++ [Node.propMethod key params body false false])
                else do
                  let hasColon ← pmEatIf .operator ":"
                  if hasColon then do
                    let value ← parseExprF f
                    let _ ← pmEatIf .punctuation ","
                    objectLitLoopF f (acc ++ [Node.propP key value false])
                  else do
                    let _ ← pmEatIf .punctuation ","
                    objectLitLoopF f (acc ++ [Node.propShorthand key])

/-- `parseObjectLit()` from `parser.js`. -/
def parseObjectLitF : Nat → PM Node
  | 0 => pmFuelOut
  | f+1 => do
      let t ← pmEat .punctuation (some "\x7b")
      let props ← objectLitLoopF f []
      let _ ← pmEat .punctuation (some "\x7d")
      pure (Node.objectLit props t.line t.col)

/-- The loop of `_parseArrowParams`. -/
def arrowParamsLoopF : Nat → List Node → PM (List Node)
  | 0, _ => pmFuelOut
  | f+1, acc => do
      let closed ← pmCheckV .punctuation ")"
      if closed then pure acc
      else do
        let isRest ← pmCheckV .operator "..."
        if isRest then do
          let _ ← pmAdv
          pure ()
        else pure ()
        let isIdent ← pmCheck .identifier
        let name ← if isIdent then tokStr <$> pmAdv else pure "_"
        let optional ← pmEatIf .operator "?"
        let hasColon ← pmCheckV .operator ":"
        let typeAnn ←
          if hasColon then do
            let _ ← pmAdv
            some <$> parseTypeExprF f
          else pure none
        let hasEq ← if isRest then pure false else pmEatIf .operator "="
        let defaultVal ← if hasEq then some <$> parseExprF f else pure none
        let acc' := acc ++ [Node.param name typeAnn defaultVal isRest optional]
        let closed' ← pmCheckV .punctuation ")"
        if ¬closed' then do
          let _ ← pmEat .punctuation (some ",")
          arrowParamsLoopF f acc'
        else arrowParamsLoopF f acc'

/-- The sequence-expression loop inside the `(`-branch of `parsePrimary`. -/
def sequenceLoopF : Nat → List Node → PM (List Node)
  | 0, _ => pmFuelOut
  | f+1, acc => do
      let more ← pmEatIf .punctuation ","
      if more then do
        let e ← parseExprF f
        sequenceLoopF f (acc ++ [e])
      else pure acc

/-- `parsePrimary()` from `parser.js`, restricted to the modelled subset
(`new`, `fn`-expressions, `this`, `super`, `channel`, `require`, `have`,
`void` and statement-decorators are marked unsupported; an unrecognized
token raises the same `Unexpected token` parse error as the source). -/
def parsePrimaryF : Nat → PM Node
  | 0 => pmFuelOut
  | f+1 => do
      let t ← pmPeek 0
      if t.type = .keyword ∧ t.value = .str "true" then do
        let _ ← pmAdv
        pure (Node.boolLit true t.line t.col)
      else if t.type = .keyword ∧ t.value = .str "false" then do
        let _ ← pmAdv
        pure (Node.boolLit false t.line t.col)
      else if t.type = .keyword ∧ t.value = .str "null" then do
        let _ ← pmAdv
        pure (Node.nullLit t.line t.col)
      else if t.type = .keyword ∧ t.value = .str "undefined" then do
        let _ ← pmAdv
        pure (Node.undefinedLit t.line t.col)
      else if t.type = .keyword ∧ t.value = .str "typeof" then do
        let _ ← pmAdv
        let arg ← parseUnaryF f
        pure (Node.unaryE "typeof" arg true t.line t.col)
      else if t.type = .keyword ∧ t.value = .str "instanceof" then do
        let _ ← pmAdv
        let arg ← parseUnaryF f
        pure (Node.unaryE "instanceof" arg true t.line t.col)
      else if t.type = .keyword ∧
          ["void","this","super","new","fn","channel","require","have"].contains (tokStrCoerce t.value) then
        pmUnsupported ("primary keyword " ++ tokStr t)
      else if t.type = .keyword ∧ t.value = .str "async" then do
        let t1 ← pmPeek 1
        if t1.value = .str "fn" then pmUnsupported "async fn expression"
        else pmErr ("Unexpected token '" ++ tokStr t ++ "' (" ++ tokTypeName t.type ++ ")")
      else if t.type = .identifier then do
        let _ ← pmAdv
        let isArrow ← pmCheckV .operator "=>"
        if isArrow then do
          let _ ← pmAdv
          let isBrace ← pmCheckV .punctuation "\x7b"
          let body ← if isBrace then parseBlockF f else parseExprF f
          pure (Node.arrowFn [Node.param (tokStr t) none none false false] body false t.line t.col)
        else pure (Node.identifier (tokStr t) t.line t.col)
      else if t.type = .number then do
        let _ ← pmAdv
        pure (Node.numberLit t.value t.line t.col)
      else if t.type = .stringT then do
        let _ ← pmAdv
        pure (Node.stringLit (tokStrCoerce t.value) t.line t.col)
      else if t.type = .template then do
        let _ ← pmAdv
        pure (Node.templateLit (match t.value with | .parts ps => ps | _ => []) t.line t.col)
      else if t.type = .punctuation ∧ t.value = .str "(" then do
        let _ ← pmAdv
        let closed ← pmCheckV .punctuation ")"
        if closed then do
          let _ ← pmAdv
          let isArrow ← pmCheckV .operator "=>"
          if isArrow then do
            let _ ← pmAdv
            let isBrace ← pmCheckV .punctuation "\x7b"
            let body ← if isBrace then parseBlockF f else parseExprF f
            pure (Node.arrowFn [] body false t.line t.col)
          else pure (Node.arrayLit [] t.line t.col)
        else do
          let ahead ← pmLookAheadArrow (f+1)
          if ahead then do
            let params ← arrowParamsLoopF f []
            let _ ← pmEat .punctuation (some ")")
            let _ ← pmEat .operator (some "=>")
            let isBrace ← pmCheckV .punctuation "\x7b"
            let body ← if isBrace then parseBlockF f else parseExprF f
            pure (Node.arrowFn params body false t.line t.col)
          else do
            let expr ← parseExprF f
            let isComma ← pmCheckV .punctuation ","
            if isComma then do
              let exprs ← sequenceLoopF f [expr]
              let _ ← pmEat .punctuation (some ")")
              pure (Node.sequenceE exprs t.line t.col)
            else do
              let _ ← pmEat .punctuation (some ")")
              pure expr
      else if t.type = .punctuation ∧ t.value = .str "[" then parseArrayLitF f
      else if t.type = .punctuation ∧ t.value = .str "\x7b" then parseObjectLitF f
      else if t.type = .operator ∧ t.value = .str "@" then pmUnsupported "decorated expression"
      else pmErr ("Unexpected token '" ++ tokStrCoerce t.value ++ "' (" ++ tokTypeName t.type ++ ")")

end

/-- `parse(tokens)` from `parser.js`: a `Program` node. -/
def parseProgramF (fuel : Nat) (tokens : List Token) : JsRes Node :=
  match parseTopLoopF fuel [] { tokens := tokens, pos := 0 } with
  | .ok (body, _) => .ok (Node.program body 1 1)
  | .err e => .err e
  | .outOfFuel => .outOfFuel

/-! ## Fuzzy similar-name search (src `error.js`, `findSimilar`) -/

/-- Levenshtein distance (functional rendering of the dynamic-programming
table built by `levenshtein` in `error.js`). -/
def levC : List Char → List Char → Nat
  | [], bs => bs.length
  | as, [] => as.length
  | a :: as, b :: bs =>
      if a = b then levC as bs
      else 1 + min (min (levC as (b :: bs)) (levC (a :: as) bs)) (levC as bs)

def levenshtein (a b : String) : Nat := levC a.data b.data

structure Scored where
  n : String
  dist : Nat
deriving DecidableEq, Repr

/-- Stable insertion into a distance-sorted list (JavaScript's stable
`sort((a,b)=>a.dist-b.dist)`). -/
def insertScored (x : Scored) : List Scored → List Scored
  | [] => [x]
  | y :: ys => if y.dist ≤ x.dist then y :: insertScored x ys else x :: y :: ys

def sortScored : List Scored → List Scored
  | [] => []
  | x :: xs => insertScored x (sortScored xs)

/-- JavaScript `s.slice(-k)`. -/
def takeLast (s : String) (k : Nat) : String :=
  String.mk (s.data.drop (s.data.length - k))

/-- `findSimilar(name, names)` from `error.js`: candidates within the
Levenshtein threshold `max(3, maxLen/2)` or sharing a four-character
prefix/suffix (case-insensitive), sorted by distance, capped at three. -/
def findSimilar (name : String) (names : List String) : List String :=
  let nl := strToLower name
  let scored := (names.filter (fun n => n ≠ name ∧ n.length > 1)).filterMap (fun n =>
    let nl2 := strToLower n
    let dist := levenshtein nl nl2
    let maxLen := max nl.length nl2.length
    let sharePre := nl.length ≥ 3 ∧ nl2.length ≥ 3 ∧
      (strStartsWith nl (String.mk (nl2.data.take 4)) ∨ strStartsWith nl2 (String.mk (nl.data.take 4)))
    let shareSuf := nl.length ≥ 3 ∧ nl2.length ≥ 3 ∧
      (strEndsWith nl (takeLast nl2 4) ∨ strEndsWith nl2 (takeLast nl 4))
    let threshold := max 3 (maxLen / 2)
    if dist ≤ threshold ∨ sharePre ∨ shareSuf then some (Scored.mk n dist) else none)
  ((sortScored scored).take 3).map (fun x => x.n)

/-! ## Scope analyzer (src `scope.js`) -/

/-- `BUILTINS` from `scope.js`. -/
def BUILTINS : List String :=
  ["console","require","process","module","exports","__filename","__dirname",
   "setTimeout","setInterval","clearTimeout","clearInterval","setImmediate","queueMicrotask",
   "Math","JSON","Date","Object","Array","String","Number","Boolean","BigInt",
   "Promise","Error","TypeError","RangeError","ReferenceError","SyntaxError",
   "Buffer","RegExp","Symbol","Map","Set","WeakMap","WeakSet","WeakRef","Proxy","Reflect",
   "Int8Array","Uint8Array","Int16Array","Uint16Array","Int32Array","Uint32Array",
   "Float32Array","Float64Array","BigInt64Array","BigUint64Array",
   "globalThis","global","undefined","Infinity","NaN","isNaN","isFinite",
   "parseInt","parseFloat","encodeURIComponent","decodeURIComponent",
   "structuredClone","fetch","URL","URLSearchParams","AbortController",
   "TextEncoder","TextDecoder","atob","btoa","performance",
   "__ntl","_ntl","arguments","eval","AggregateError"]

/-- A scope binding record: `{kind, line, used}` (`line := 0` models a
missing `line` in the metadata, which is falsy in the source's checks). -/
structure Binding where
  kind : String
  line : Nat
  used : Bool
deriving DecidableEq, Repr

/-- One lexical scope: its kind tag and its bindings in insertion order
(a JavaScript `Map`). -/
structure ScopeFr where
  kind : String
  bindings : List (String × Binding)
deriving Repr

/-- The `Map.set` discipline: overwrite in place or append. -/
def mapSet (m : List (String × Binding)) (k : String) (v : Binding) :
    List (String × Binding) :=
  if m.any (fun p => p.1 = k) then m.map (fun p => if p.1 = k then (k, v) else p)
  else m ++ [(k, v)]

/-- A diagnostic pushed by `ScopeAnalyzer.use` (the `sourceLines` and `file`
fields, attached later by the driver, are presentational and not modelled). -/
structure ScopeErr where
  name : String
  message : String
  phase : String
  code : String
  line : Nat
  col : Nat
  similar : List String
  suggestion : List String
  exBad : Option String
  exGood : Option String
deriving DecidableEq, Repr

/-- The analyzer state: the scope chain (head = current, last = root) and
the accumulated error list. -/
structure SA where
  scopes : List ScopeFr
  errors : List ScopeErr

/-- A fresh analyzer: the root scope pre-declares every builtin. -/
def saInit : SA :=
  { scopes := [⟨"global", BUILTINS.map (fun b => (b, ⟨"builtin", 0, false⟩))⟩],
    errors := [] }

def saPush (sa : SA) (kind : String) : SA :=
  { sa with scopes := ⟨kind, []⟩ :: sa.scopes }

/-- `pop()`: move to the parent unless already at the root. -/
def saPop (sa : SA) : SA :=
  match sa.scopes with
  | _ :: rest => if rest.isEmpty then sa else { sa with scopes := rest }
  | [] => sa

/-- `declare(name, meta)` into the current scope. -/
def saDeclare (sa : SA) (name : String) (kind : String) (line : Nat) : SA :=
  match sa.scopes with
  | cur :: rest =>
      { sa with scopes := { cur with bindings := mapSet cur.bindings name ⟨kind, line, false⟩ } :: rest }
  | [] => sa

/-- `current.has(name)`: own bindings only. -/
def saHas (sa : SA) (name : String) : Bool :=
  match sa.scopes with
  | cur :: _ => cur.bindings.any (fun p => p.1 = name)
  | [] => false

/-- `lookup(name)`: walk the parent chain. -/
def saLookup (scopes : List ScopeFr) (name : String) : Option Binding :=
  match scopes with
  | [] => none
  | fr :: rest =>
      match fr.bindings.find? (fun p => p.1 = name) with
      | some p => some p.2
      | none => saLookup rest name

/-- `binding.used = true` on the binding found by `lookup`. -/
def saMarkUsedGo (name : String) : List ScopeFr → List ScopeFr
  | [] => []
  | fr :: rest =>
      if fr.bindings.any (fun p => p.1 = name) then
        let bs := fr.bindings.map
          (fun p => if p.1 = name then (p.1, { p.2 with used := true }) else p)
        { fr with bindings := bs } :: rest
      else fr :: saMarkUsedGo name rest

def saMarkUsed (sa : SA) (name : String) : SA :=
  { sa with scopes := saMarkUsedGo name sa.scopes }

/-- `allNames()`: current scope's names, then the parents'. -/
def saAllNames (scopes : List ScopeFr) : List String :=
  scopes.flatMap (fun fr => fr.bindings.map (fun p => p.1))

/-- `allUserNames()`. -/
def saAllUserNames (scopes : List ScopeFr) : List String :=
  (saAllNames scopes).filter
    (fun n => ¬BUILTINS.contains n ∧ n.length > 1 ∧ ¬strStartsWith n "_ntl")

/-- `ScopeAnalyzer.use(name, line, col)` from `scope.js` (`col := 0` models
an absent third argument, which the source defaults to 1 via `col || 1`). -/
def saUse (sa : SA) (name : String) (line : Nat) (col : Nat) : SA :=
  if name = "" ∨ name = "_" ∨ name = "undefined" then sa
  else
    match saLookup sa.scopes name with
    | some _ => saMarkUsed sa name
    | none =>
        let similar := findSimilar name (saAllUserNames sa.scopes)
        let isPrint := name = "print" ∨ name = "println"
        let similarAnnotated := similar.map (fun s =>
          match saLookup sa.scopes s with
          | some b => if b.line ≠ 0 then s ++ "    (line " ++ toString b.line ++ ")" else s
          | none => s)
        let suggestion :=
          if isPrint then
            ["Use console.log instead of " ++ name ++ " (recommended):\n     > console.log(message)",
             "Define '" ++ name ++ "' as an alias if you prefer the syntax:\n     > const " ++ name ++ " = console.log\n     > " ++ name ++ "(message)",
             "Use NTL's built-in logging module:\n     > const require(ntl, logger)\n     > val log = logger.create()\n     > log.info(message)"]
          else if similar.length > 0 then
            ["Declare '" ++ name ++ "' before using it:\n     > const " ++ name ++ " = <value>",
             "Pass '" ++ name ++ "' as a function parameter:\n     > function doSomething(" ++ name ++ ") \x7b\n     >   return " ++ name ++ "\n     > \x7d",
             "Check for typos — did you mean " ++
               String.intercalate " or "
                 ((similar.take 2).map (fun s => "'" ++ ((strSplitChar ' ' s).headD "") ++ "'")) ++ "?"]
          else
            ["Declare '" ++ name ++ "' before using it:\n     > const " ++ name ++ " = <value>\n     > return " ++ name,
             "Pass '" ++ name ++ "' as a function parameter:\n     > function doSomething(" ++ name ++ ") \x7b\n     >   return " ++ name ++ "\n     > \x7d"]
        let err : ScopeErr :=
          { name := name,
            message := if isPrint then "Undefined function: '" ++ name ++ "'"
                       else "Variable '" ++ name ++ "' is not defined",
            phase := if isPrint then "runtime" else "scope",
            code := if isPrint then "UNDEF_FUNC" else "UNDEF_VAR",
            line := line, col := if col = 0 then 1 else col,
            similar := similarAnnotated,
            suggestion := suggestion,
            exBad := if isPrint then some (name ++ "(\"Hello, World\")") else none,
            exGood := if isPrint then some "console.log(\"Hello, World\")" else none }
        { sa with errors := sa.errors ++ [err] }

/-- `_hoistAll(stmts)` restricted to the modelled statement subset (only
function declarations are hoistable here; classes, enums, macros,
namespaces, exports and decorated forms are outside the subset). -/
def saHoistAll (sa : SA) (stmts : List Node) : SA :=
  stmts.foldl (fun sa s =>
    match s with
    | .fnDecl (some name) _ _ _ _ line _ => saDeclare sa name "fn" line
    | _ => sa) sa

/-- The statement list of a `Block` node (`node.body || []`). -/
def blockBody : Node → List Node
  | .blockN b _ _ => b
  | _ => []

mutual

/-- `visitStmt` from `scope.js` (modelled statement subset). -/
def visitStmt (sa : SA) (n : Node) : SA :=
  match n with
  | .varDecl name _ init _ isConst line _ =>
      let sa1 := match init with
        | some e => visitExpr sa e
        | none => sa
      match name with
      | some nm => saDeclare sa1 nm (if isConst then "const" else "var") line
      | none => sa1
  | .multiVarDecl ds _ _ _ => visitStmts sa ds
  | .fnDecl name params _ body _ line _ =>
      -- `_visitFn` inlined (the modelled subset reaches it only from here)
      let sa1 := match name with
        | some nm => if saHas sa nm then sa else saDeclare sa nm "fn" line
        | none => sa
      let sa2 := saPush sa1 "function"
      let sa3 := declareParams sa2 params line
      let sa4 := match body with
        | .blockN bb _ _ => visitStmts (saHoistAll sa3 bb) bb
        | _ => sa3
      saPop sa4
  | .exprStmt e _ _ => visitExpr sa e
  | .returnStmt v _ _ =>
      match v with
      | some e => visitExpr sa e
      | none => sa
  | .matchStmt subject cases _ _ =>
      let sa1 := visitExpr sa subject
      visitMatchCases sa1 cases
  | .blockN bb _ _ => saPop (visitStmts (saPush sa "block") bb)
  | .breakStmt _ _ => sa
  | .continueStmt _ _ => sa
  | _ => sa

def visitStmts (sa : SA) (l : List Node) : SA :=
  match l with
  | [] => sa
  | s :: rest => visitStmts (visitStmt sa s) rest

/-- Function parameter declaration inside `_visitFn`: each named parameter
is declared with the function node's line; default values are visited. -/
def declareParams (sa : SA) (params : List Node) (line : Nat) : SA :=
  match params with
  | [] => sa
  | .param nm _ dv _ _ :: rest =>
      let sa1 := saDeclare sa nm "param" line
      let sa2 := match dv with
        | some e => visitExpr sa1 e
        | none => sa1
      declareParams sa2 rest line
  | _ :: rest => declareParams sa rest line

/-- The per-case body of the `MatchStmt` case of `visitStmt`. -/
def visitMatchCases (sa : SA) (cases : List Node) : SA :=
  match cases with
  | [] => sa
  | .matchCase pats guard body _ :: rest =>
      let sa1 := saPush sa "match"
      let sa2 := declareMatchBindingsList sa1 pats
      let sa3 := match guard with
        | some g => visitExpr sa2 g
        | none => sa2
      let sa4 := saPop (match body with
        | .blockN bb _ _ => visitStmts sa3 bb
        | _ => sa3)
      visitMatchCases sa4 rest
  | _ :: rest => visitMatchCases sa rest

/-- `_declareMatchBindings(pat)` from `scope.js`. -/
def declareMatchBindings (sa : SA) (p : Node) : SA :=
  match p with
  | .patBinding nm => saDeclare sa nm "const" 0
  | .patVariant _ fields => declareMatchBindingsList sa fields
  | .patObject props => declareMatchPatProps sa props
  | .patArray items => declareMatchBindingsArray sa items
  | _ => sa

def declareMatchBindingsList (sa : SA) (ps : List Node) : SA :=
  match ps with
  | [] => sa
  | p :: rest => declareMatchBindingsList (declareMatchBindings sa p) rest

/-- The object-property walk of `_declareMatchBindings`. -/
def declareMatchPatProps (sa : SA) (props : List Node) : SA :=
  match props with
  | [] => sa
  | .patProp key aliasN :: rest =>
      let sa1 := match aliasN with
        | some a => saDeclare sa a "const" 0
        | none =>
            match key with
            | some k => saDeclare sa k "const" 0
            | none => sa
      declareMatchPatProps sa1 rest
  | _ :: rest => declareMatchPatProps sa rest

/-- The array-item walk of `_declareMatchBindings` (an item with a `name`
declares it; an item with a nested pattern recurses). -/
def declareMatchBindingsArray (sa : SA) (items : List Node) : SA :=
  match items with
  | [] => sa
  | .patBinding nm :: rest => declareMatchBindingsArray (saDeclare sa nm "const" 0) rest
  | it :: rest => declareMatchBindingsArray (declareMatchBindings sa it) rest

/-- `visitExpr` from `scope.js` (modelled expression subset).  The
`ObjectLit` case reproduces the source exactly: the `break` statement at
the end of the property loop's body exits the loop after the **first**
property, and the missing `break` for the switch case then falls through
into the `ArrowFn`/`FnExpr` case, which pushes and pops an empty function
scope (the object-literal node has no `params` or `body` fields). -/
def visitExpr (sa : SA) (n : Node) : SA :=
  match n with
  | .identifier name line col => saUse sa name line col
  | .binaryE _ l r _ _ => visitExpr (visitExpr sa l) r
  | .unaryE _ a _ _ _ => visitExpr sa a
  | .assignE l _ r _ _ => visitExpr (visitExpr sa l) r
  | .ternaryE t c a _ _ => visitExpr (visitExpr (visitExpr sa t) c) a
  | .callE callee args _ _ _ => visitExprs (visitExpr sa callee) args
  | .memberE obj _ propC _ _ _ =>
      let sa1 := visitExpr sa obj
      match propC with
      | some p => visitExpr sa1 p
      | none => sa1
  | .arrayLit els _ _ => visitOptExprs sa els
  | .objectLit props line _ =>
      let sa1 := match props with
        | [] => sa
        | p :: _ =>
            match p with
            | .propP _ v _ => visitExpr sa v
            | .propShorthand k => saUse sa k line 0
            | .propSpread a => visitExpr sa a
            | .propMethod _ params body _ _ =>
                let saA := saPush sa "function"
                let saB := declareParamsNoLine saA params
                let saC := match body with
                  | .blockN bb _ _ => visitStmts saB bb
                  | _ => saB
                saPop saC
            | _ => sa
      saPop (saPush sa1 "function")
  | .arrowFn params body _ _ _ =>
      let sa1 := saPush sa "function"
      let sa2 := declareParamsNoLine2 sa1 params
      let sa3 := match body with
        | .blockN bb _ _ => visitStmts (saHoistAll sa2 bb) bb
        | other => visitExpr sa2 other
      saPop sa3
  | .awaitE a _ _ => visitExpr sa a
  | .yieldE a _ _ _ => visitExpr sa a
  | .spreadE a _ _ => visitExpr sa a
  | .pipelineE l r _ _ => visitExpr (visitExpr sa l) r
  | .sequenceE es _ _ => visitExprs sa es
  | _ => sa

def visitExprs (sa : SA) (l : List Node) : SA :=
  match l with
  | [] => sa
  | e :: rest => visitExprs (visitExpr sa e) rest

def visitOptExprs (sa : SA) (l : List (Option Node)) : SA :=
  match l with
  | [] => sa
  | some e :: rest => visitOptExprs (visitExpr sa e) rest
  | none :: rest => visitOptExprs sa rest

/-- Parameter declaration in the object-literal `method` branch of
`visitExpr` (`declare(param.name, {kind:'param'})`: no line, no default
visit). -/
def declareParamsNoLine (sa : SA) (params : List Node) : SA :=
  match params with
  | [] => sa
  | .param nm _ _ _ _ :: rest => declareParamsNoLine (saDeclare sa nm "param" 0) rest
  | _ :: rest => declareParamsNoLine sa rest

/-- Parameter declaration in the `ArrowFn`/`FnExpr` branch of `visitExpr`
(`declare(p.name, {kind:'param'})` plus a visit of the default value). -/
def declareParamsNoLine2 (sa : SA) (params : List Node) : SA :=
  match params with
  | [] => sa
  | .param nm _ dv _ _ :: rest =>
      let sa1 := saDeclare sa nm "param" 0
      let sa2 := match dv with
        | some e => visitExpr sa1 e
        | none => sa1
      declareParamsNoLine2 sa2 rest
  | _ :: rest => declareParamsNoLine2 sa rest

end

/-- `ScopeAnalyzer.analyze(ast)` from `scope.js`: hoist the top level,
visit every statement, return the accumulated error list. -/
def analyze (ast : Node) : List ScopeErr :=
  let body := match ast with
    | .program b _ _ => b
    | _ => []
  (visitStmts (saHoistAll saInit body) body).errors

/-! ## Type inferer (src `typeinfer.js`) -/

/-- Literal-type payloads (`Type.literal(v)`). -/
inductive LitTy where
  | numV (i : Int)
  | strV (s : String)
  | boolV (b : Bool)
deriving DecidableEq, Repr

/-- The `Type` objects of `typeinfer.js` (the kinds constructible in the
modelled subset plus those used by the built-in environment). -/
inductive Ty where
  | any | never | unknown
  | prim (name : String)
  | lit (value : LitTy)
  | arr (elem : Ty)
  | obj (fields : List (String × Ty))
  | fnT (params : List (String × Ty)) (ret : Ty)
  | cls (name : String) (fields : List (String × Ty)) (methods : List (String × Ty))
  | union (types : List Ty)
  | nullT | undefinedT

mutual

/-- `Type.prototype.toString` from `typeinfer.js`.  In the `fn` case the
source writes `p.type || 'any'` and `this.ret || 'any'` inside a template
literal: the stored types are objects (always truthy), so their own
`toString` is used. -/
def tyToString : Ty → String
  | .prim name => name
  | .union ts => String.intercalate " | " (tyToStringList ts)
  | .arr e => tyToString e ++ "[]"
  | .obj fields => "\x7b " ++ String.intercalate ", " (tyToStringFields fields) ++ " \x7d"
  | .fnT params ret =>
      "(" ++ String.intercalate ", " (tyToStringParams params) ++ ") -> " ++ tyToString ret
  | .cls name _ _ => name
  | .lit (.numV i) => toString i
  | .lit (.strV s) => "\"" ++ s ++ "\""
  | .lit (.boolV b) => if b then "true" else "false"
  | .nullT => "null"
  | .undefinedT => "undefined"
  | .unknown => "unknown"
  | .never => "never"
  | .any => "any"

def tyToStringList : List Ty → List String
  | [] => []
  | t :: ts => tyToString t :: tyToStringList ts

def tyToStringFields : List (String × Ty) → List String
  | [] => []
  | (k, v) :: fs => (k ++ ": " ++ tyToString v) :: tyToStringFields fs

def tyToStringParams : List (String × Ty) → List String
  | [] => []
  | (_, t) :: ps => tyToString t :: tyToStringParams ps

end

/-- `Type.union(...)`: flatten nested unions, deduplicate by printed form,
collapse a singleton. -/
def mkUnion (ts : List Ty) : Ty :=
  let flat := ts.flatMap (fun t => match t with | .union us => us | _ => [t])
  let dedup := flat.foldl
    (fun acc t => if acc.any (fun d => tyToString d = tyToString t) then acc else acc ++ [t]) []
  match dedup with
  | [t] => t
  | l => .union l

/-- The `GLOBAL_TYPES` table. -/
def globalTypesGet (s : String) : Option Ty :=
  match s with
  | "number" => some (.prim "number")
  | "string" => some (.prim "string")
  | "boolean" => some (.prim "boolean")
  | "void" => some (.prim "void")
  | "any" => some .any
  | "never" => some .never
  | "unknown" => some .unknown
  | "null" => some .nullT
  | "undefined" => some .undefinedT
  | "bigint" => some (.prim "bigint")
  | "object" => some (.prim "object")
  | "symbol" => some (.prim "symbol")
  | _ => none

/-- JavaScript `s.includes('|')`. -/
def strIncludesBar (s : String) : Bool := s.data.contains '|'

/-- `parseTypeStr(s)` from `typeinfer.js` applied to a string, fuelled; the
recursion strictly shrinks the string, so `s.length + 1` fuel always
suffices (see `parseTypeStr`). -/
def parseTypeStrF : Nat → String → Option Ty
  | 0, _ => none
  | f+1, s =>
      if s = "" ∨ s = "any" then some .any
      else
        match globalTypesGet s with
        | some t => some t
        | none =>
            if strEndsWith s "[]" then
              (parseTypeStrF f (String.mk (s.data.take (s.data.length - 2)))).map .arr
            else if strIncludesBar s then
              let parts := (strSplitChar '|' s).map (fun p => strTrim p)
              (parts.mapM (parseTypeStrF f)).map mkUnion
            else some (.prim s)

/-- Total wrapper for `parseTypeStr` on a string argument (the fallback is
unreachable: the fuel bound dominates the recursion depth). -/
def parseTypeStr (s : String) : Ty :=
  (parseTypeStrF (s.length + 1) s).getD .any

/-- `parseTypeStr` applied to a `Type` **object** (as `inferCall` does with
`callee.ret`): `!s` is false and `s === 'any'` is false because `s` is an
object; the `GLOBAL_TYPES[s]` property access coerces the object to its
printed form; if that misses, `s.endsWith` is not a function and a host
`TypeError` is thrown. -/
def parseTypeStrDyn (t : Ty) : JsRes Ty :=
  match globalTypesGet (tyToString t) with
  | some g => .ok g
  | none => .err (JsErr.mk false "" "TypeError: s.endsWith is not a function" 0 0)

mutual

/-- Recursion-depth budget for `isAssignable`. -/
def tySize : Ty → Nat
  | .union ts => 1 + tySizeList ts
  | .arr e => 1 + tySize e
  | _ => 1

def tySizeList : List Ty → Nat
  | [] => 0
  | t :: ts => tySize t + tySizeList ts

end

mutual

/-- `isAssignable(from, to)` from `typeinfer.js`, fuelled (every recursive
call either descends into a subterm or advances along a union's member
list, so the wrapper's budget below always suffices). -/
def isAssignableF : Nat → Ty → Ty → Bool
  | 0, _, _ => false
  | f+1, src, tgt =>
      if ((match tgt with | .any => true | _ => false) ||
          (match src with | .any => true | _ => false) : Bool) then true
      else if (match tgt with | .unknown => true | _ => false : Bool) then true
      else if (match src with | .never => true | _ => false : Bool) then true
      else if tyToString src = tyToString tgt then true
      else
        match tgt with
        | .union ts => isAssignAnyTgt f src ts
        | _ =>
            match src with
            | .union ss => isAssignAllSrc f ss tgt
            | .lit v =>
                (match tgt with
                 | .prim p =>
                     (p == "number" && (match v with | LitTy.numV _ => true | _ => false)) ||
                     (p == "string" && (match v with | LitTy.strV _ => true | _ => false)) ||
                     (p == "boolean" && (match v with | LitTy.boolV _ => true | _ => false))
                 | _ => false)
            | _ => false

def isAssignAnyTgt : Nat → Ty → List Ty → Bool
  | 0, _, _ => false
  | _+1, _, [] => false
  | f+1, src, t :: ts => isAssignableF f src t || isAssignAnyTgt f src ts

def isAssignAllSrc : Nat → List Ty → Ty → Bool
  | 0, _, _ => false
  | _+1, [], _ => true
  | f+1, s :: ss, tgt => isAssignableF f s tgt && isAssignAllSrc f ss tgt

end

/-- The source recursion never exhausts this budget: any call path descends
a subterm of `src` or `tgt` or walks along one of their union lists, so its
length is below twice the combined size. -/
def isAssignable (src tgt : Ty) : Bool :=
  isAssignableF (2 * (tySize src + tySize tgt) + 2) src tgt

/-- An error or warning record pushed by the inferer. -/
structure TyDiag where
  message : String
  line : Nat
  code : String
deriving DecidableEq, Repr

/-- One `TypeEnv` frame of the environment arena (the source links child
environments to their parents by reference; the arena uses indices). -/
structure TyFrame where
  parent : Option Nat
  vars : List (String × Ty)
  types : List (String × Ty)

/-- The `TypeInferer` state. -/
structure TI where
  envs : Array TyFrame
  errors : List TyDiag
  warnings : List TyDiag
  strict : Bool

def tyMapSet (m : List (String × Ty)) (k : String) (v : Ty) : List (String × Ty) :=
  if m.any (fun p => p.1 = k) then m.map (fun p => if p.1 = k then (k, v) else p)
  else m ++ [(k, v)]

/-- `env.setVar(name, type)` on frame `i`. -/
def tiSetVar (ti : TI) (i : Nat) (name : String) (t : Ty) : TI :=
  { ti with envs := ti.envs.modify i (fun fr => { fr with vars := tyMapSet fr.vars name t }) }

/-- `env.getVar(name)`: walk the parent chain. -/
def tiGetVarGo : Nat → Array TyFrame → Nat → String → Option Ty
  | 0, _, _, _ => none
  | d+1, envs, i, name =>
      match envs[i]? with
      | none => none
      | some fr =>
          match fr.vars.find? (fun p => p.1 = name) with
          | some p => some p.2
          | none =>
              match fr.parent with
              | some j => tiGetVarGo d envs j name
              | none => none

def tiGetVar (ti : TI) (i : Nat) (name : String) : Option Ty :=
  tiGetVarGo (ti.envs.size + 1) ti.envs i name

/-- `env.child()`: a fresh frame linked to its parent. -/
def tiChild (ti : TI) (parent : Nat) : Nat × TI :=
  (ti.envs.size, { ti with envs := ti.envs.push ⟨some parent, [], []⟩ })

/-- `_setupGlobals()` from `typeinfer.js`: the value bindings of the root
environment (type-name bindings fall back to `GLOBAL_TYPES` on lookup,
which `globalTypesGet` models directly). -/
def tiGlobalsVars : List (String × Ty) :=
  [("console", .obj [("log", .fnT [] (.prim "void")), ("error", .fnT [] (.prim "void")),
                     ("warn", .fnT [] (.prim "void")), ("info", .fnT [] (.prim "void"))]),
   ("Math", .obj [("abs", .fnT [] (.prim "number")), ("ceil", .fnT [] (.prim "number")),
                  ("floor", .fnT [] (.prim "number")), ("round", .fnT [] (.prim "number")),
                  ("sqrt", .fnT [] (.prim "number")), ("max", .fnT [] (.prim "number")),
                  ("min", .fnT [] (.prim "number")), ("random", .fnT [] (.prim "number")),
                  ("PI", .prim "number"), ("E", .prim "number")]),
   ("JSON", .obj [("parse", .fnT [] .any), ("stringify", .fnT [] (.prim "string"))]),
   ("Date", .fnT [] .any),
   ("Promise", .fnT [] .any),
   ("Object", .obj [("keys", .fnT [] (.arr (.prim "string"))), ("values", .fnT [] (.arr .any)),
                    ("entries", .fnT [] (.arr .any)), ("assign", .fnT [] .any),
                    ("freeze", .fnT [] .any), ("create", .fnT [] .any)]),
   ("Array", .obj [("from", .fnT [] .any), ("isArray", .fnT [] (.prim "boolean"))]),
   ("Error", .fnT [] .any),
   ("process", .obj [("env", .obj []), ("argv", .arr (.prim "string")),
                     ("exit", .fnT [] (.prim "void")), ("cwd", .fnT [] (.prim "string")),
                     ("stdout", .any), ("stderr", .any)]),
   ("require", .fnT [] .any)]

def tiInit (strict : Bool) : TI :=
  { envs := #[⟨none, tiGlobalsVars, []⟩], errors := [], warnings := [], strict := strict }

/-- `_hoistDecls(node, env)` restricted to the modelled subset (only
function declarations occur; their parameter and return annotations go
through `parseTypeStr`). -/
def hoistDecls (ti : TI) (env : Nat) (n : Node) : TI :=
  match n with
  | .fnDecl (some name) params returnType _ isAsync _ _ =>
      let ps := params.filterMap (fun p =>
        match p with
        | .param nm tyAnn _ _ _ => some (nm, match tyAnn with
            | some a => parseTypeStr a
            | none => Ty.any)
        | _ => none)
      let ret := match returnType with
        | some r => parseTypeStr r
        | none => Ty.any
      let ft := if isAsync then Ty.obj [("then", .fnT [] .any)] else Ty.fnT ps ret
      tiSetVar ti env name ft
  | _ => ti

def hoistDeclsAll (ti : TI) (env : Nat) (stmts : List Node) : TI :=
  stmts.foldl (fun ti s => hoistDecls ti env s) ti

/-- Parameter processing shared by `inferFnDecl` and the arrow/function
expression case: annotate, bind in the child environment, collect. -/
def inferFnParams (ti : TI) (fe : Nat) (params : List Node) :
    List (String × Ty) × TI :=
  params.foldl (fun (acc : List (String × Ty) × TI) p =>
    match p with
    | .param nm tyAnn _ _ _ =>
        let pt := match tyAnn with
          | some a => parseTypeStr a
          | none => Ty.any
        (acc.1 ++ [(nm, pt)], tiSetVar acc.2 fe nm pt)
    | _ => acc) ([], ti)

/-- The member lists hardcoded by `inferMember` for arrays and strings. -/
def arrayMethodNames : List String :=
  ["push","pop","shift","unshift","splice","slice","concat","map","filter","reduce",
   "forEach","find","findIndex","includes","indexOf","some","every","flat","flatMap",
   "sort","reverse","join"]

def stringMethodNames : List String :=
  ["toUpperCase","toLowerCase","trim","trimStart","trimEnd","replace","replaceAll",
   "split","includes","startsWith","endsWith","indexOf","slice","substring",
   "padStart","padEnd","repeat"]

/-- `inferBinary`'s result type (both operands already inferred). -/
def inferBinaryTy (op : String) (l r : Ty) : Ty :=
  if ["+","-","*","/","%","**","<<",">>",">>>","&","|","^"].contains op then
    if op = "+" then
      if (match l with | Ty.prim nm => nm == "string" | _ => false : Bool) then Ty.prim "string"
      else if (match r with | Ty.prim nm => nm == "string" | _ => false : Bool) then Ty.prim "string"
      else Ty.prim "number"
    else Ty.prim "number"
  else if ["===","!==","==","!=","<",">","<=",">=","instanceof","in"].contains op then
    Ty.prim "boolean"
  else if op = "&&" ∨ op = "||" then mkUnion [l, r]
  else if op = "??" then
    mkUnion [(match l with | .nullT => Ty.never | .undefinedT => Ty.never | _ => l), r]
  else Ty.any

mutual

/-- `inferStmt` from `typeinfer.js` (modelled statement subset). -/
def inferStmt (ti : TI) (env : Nat) (n : Node) : JsRes (Ty × TI) :=
  match n with
  | .varDecl name typeAnn init _ _ line _ =>
      -- `inferVarDecl` inlined
      (match init with
       | some ie =>
           (match inferExpr ti env ie with
            | .ok (t0, ti1) =>
                let (t2, ti2) := match typeAnn with
                  | some annStr =>
                      let ann := parseTypeStr annStr
                      let tiE :=
                        if ti1.strict ∧ ¬isAssignable t0 ann then
                          { ti1 with errors := ti1.errors ++
                            [⟨"Type '" ++ tyToString t0 ++ "' is not assignable to type '" ++
                              tyToString ann ++ "'", line, "TYPE_MISMATCH"⟩] }
                        else ti1
                      (ann, tiE)
                  | none => (t0, ti1)
                let ti3 := match name with
                  | some nm => tiSetVar ti2 env nm t2
                  | none => ti2
                .ok (t2, ti3)
            | .err e => .err e
            | .outOfFuel => .outOfFuel)
       | none =>
           let t := match typeAnn with
             | some annStr => parseTypeStr annStr
             | none => Ty.any
           let ti1 := match name with
             | some nm => tiSetVar ti env nm t
             | none => ti
           .ok (t, ti1))
  | .multiVarDecl ds _ _ _ =>
      (inferStmts ti env ds).map (fun r => (Ty.prim "void", r.2))
  | .fnDecl name params returnType body _ _ _ =>
      -- `inferFnDecl` inlined; the parser always builds a `Block` body, and
      -- `inferStmt` on a `Block` opens one more child environment
      let (fe, ti1) := tiChild ti env
      let (ps, ti2) := inferFnParams ti1 fe params
      let retAnn := returnType.map parseTypeStr
      let bodyRes : JsRes TI := match body with
        | .blockN bb _ _ =>
            let (be, tiB) := tiChild ti2 fe
            (inferStmts tiB be bb).map (fun r => r.2)
        | _ => .ok ti2
      (match bodyRes with
       | .ok ti3 =>
           let ret := retAnn.getD Ty.any
           let ft := Ty.fnT ps ret
           let ti4 := match name with
             | some nm => tiSetVar ti3 env nm ft
             | none => ti3
           .ok (ft, ti4)
       | .err e => .err e
       | .outOfFuel => .outOfFuel)
  | .exprStmt e _ _ => inferExpr ti env e
  | .returnStmt v _ _ =>
      (match v with
       | some e => inferExpr ti env e
       | none => .ok (Ty.prim "void", ti))
  | .matchStmt subject cases _ _ =>
      (match inferExpr ti env subject with
       | .ok (_, ti1) => (inferMatchCases ti1 env cases).map (fun r => (Ty.any, r))
       | .err e => .err e
       | .outOfFuel => .outOfFuel)
  | .blockN body _ _ =>
      let (be, ti1) := tiChild ti env
      (inferStmts ti1 be body).map (fun r => (Ty.prim "void", r.2))
  | .breakStmt _ _ => .ok (Ty.prim "void", ti)
  | .continueStmt _ _ => .ok (Ty.prim "void", ti)
  | _ => .ok (Ty.any, ti)

def inferStmts (ti : TI) (env : Nat) (l : List Node) : JsRes (Ty × TI) :=
  match l with
  | [] => .ok (Ty.prim "void", ti)
  | s :: rest =>
      match inferStmt ti env s with
      | .ok (_, ti1) => inferStmts ti1 env rest
      | .err e => .err e
      | .outOfFuel => .outOfFuel

def inferMatchCases (ti : TI) (env : Nat) (cases : List Node) : JsRes TI :=
  match cases with
  | [] => .ok ti
  | .matchCase _ _ body _ :: rest =>
      let (ce, ti1) := tiChild ti env
      let bodyRes : JsRes TI := match body with
        | .blockN bb _ _ =>
            let (be, tiB) := tiChild ti1 ce
            (inferStmts tiB be bb).map (fun r => r.2)
        | _ => .ok ti1
      (match bodyRes with
       | .ok ti2 => inferMatchCases ti2 env rest
       | .err e => .err e
       | .outOfFuel => .outOfFuel)
  | _ :: rest => inferMatchCases ti env rest

/-- `inferExpr` from `typeinfer.js` (modelled expression subset). -/
def inferExpr (ti : TI) (env : Nat) (n : Node) : JsRes (Ty × TI) :=
  match n with
  | .numberLit v _ _ =>
      .ok ((match v with | .bigintV _ => Ty.prim "bigint" | _ => Ty.prim "number"), ti)
  | .stringLit _ _ _ => .ok (Ty.prim "string", ti)
  | .boolLit _ _ _ => .ok (Ty.prim "boolean", ti)
  | .nullLit _ _ => .ok (Ty.nullT, ti)
  | .undefinedLit _ _ => .ok (Ty.undefinedT, ti)
  | .templateLit _ _ _ => .ok (Ty.prim "string", ti)
  | .arrayLit els _ _ =>
      (match inferOptExprList ti env els with
       | .ok (elems, ti1) =>
           let elem := if elems.isEmpty then Ty.any else mkUnion elems
           .ok (Ty.arr elem, ti1)
       | .err e => .err e
       | .outOfFuel => .outOfFuel)
  | .objectLit props _ _ =>
      (inferObjProps ti env props).map (fun r => (Ty.obj r.1, r.2))
  | .identifier name line _ =>
      let t := tiGetVar ti env name
      let ti1 :=
        if t.isNone ∧ ti.strict then
          { ti with warnings := ti.warnings ++
            [⟨"'" ++ name ++ "' may be undefined", line, "MAYBE_UNDEF"⟩] }
        else ti
      .ok (t.getD Ty.any, ti1)
  | .binaryE op l r _ _ =>
      (match inferExpr ti env l with
       | .ok (lt, ti1) =>
           (match inferExpr ti1 env r with
            | .ok (rt, ti2) => .ok (inferBinaryTy op lt rt, ti2)
            | .err e => .err e
            | .outOfFuel => .outOfFuel)
       | .err e => .err e
       | .outOfFuel => .outOfFuel)
  | .unaryE op a _ _ _ =>
      if op = "typeof" then .ok (Ty.prim "string", ti)
      else if op = "!" ∨ op = "~" then
        .ok ((if op = "!" then Ty.prim "boolean" else Ty.prim "number"), ti)
      else inferExpr ti env a
  | .assignE l op r line _ =>
      (match inferExpr ti env r with
       | .ok (rt, ti1) =>
           let ti2 := match l with
             | .identifier nm _ _ =>
                 (match tiGetVar ti1 env nm with
                  | some existing =>
                      if ti1.strict ∧ op = "=" then
                        if (!(isAssignable rt existing) &&
                            !(match existing with | Ty.any => true | _ => false) : Bool) then
                          { ti1 with errors := ti1.errors ++
                            [⟨"Type '" ++ tyToString rt ++ "' is not assignable to '" ++
                              tyToString existing ++ "'", line, "TYPE_MISMATCH"⟩] }
                        else ti1
                      else ti1
                  | none => ti1)
             | _ => ti1
           .ok (rt, ti2)
       | .err e => .err e
       | .outOfFuel => .outOfFuel)
  | .ternaryE _ c a _ _ =>
      (match inferExpr ti env c with
       | .ok (ct, ti1) =>
           (match inferExpr ti1 env a with
            | .ok (at_, ti2) => .ok (mkUnion [ct, at_], ti2)
            | .err e => .err e
            | .outOfFuel => .outOfFuel)
       | .err e => .err e
       | .outOfFuel => .outOfFuel)
  | .callE callee _ _ _ _ =>
      -- `inferCall`: only the callee is inferred; the arguments are not
      (match inferExpr ti env callee with
       | .ok (ct, ti1) =>
           (match ct with
            | .fnT _ ret =>
                (match parseTypeStrDyn ret with
                 | .ok t => .ok (t, ti1)
                 | .err e => .err e
                 | .outOfFuel => .outOfFuel)
            | .cls _ _ _ => .ok (ct, ti1)
            | _ => .ok (Ty.any, ti1))
       | .err e => .err e
       | .outOfFuel => .outOfFuel)
  | .memberE ob propName propC _ _ _ =>
      (match inferExpr ti env ob with
       | .ok (ot, ti1) =>
           let prop := if propC.isSome then none else propName
           (match prop with
            | none => .ok (Ty.any, ti1)
            | some p =>
                (match ot with
                 | .obj fields =>
                     (match fields.find? (fun kv => kv.1 = p) with
                      | some kv => .ok (kv.2, ti1)
                      | none => .ok (Ty.any, ti1))
                 | .cls _ fields methods =>
                     (match fields.find? (fun kv => kv.1 = p) with
                      | some kv => .ok (kv.2, ti1)
                      | none =>
                          match methods.find? (fun kv => kv.1 = p) with
                          | some kv => .ok (kv.2, ti1)
                          | none => .ok (Ty.any, ti1))
                 | .arr _ =>
                     if p = "length" then .ok (Ty.prim "number", ti1)
                     else .ok (Ty.any, ti1)
                 | .prim nm =>
                     if nm = "string" then
                       if p = "length" then .ok (Ty.prim "number", ti1)
                       else .ok (Ty.any, ti1)
                     else .ok (Ty.any, ti1)
                 | _ => .ok (Ty.any, ti1)))
       | .err e => .err e
       | .outOfFuel => .outOfFuel)
  | .arrowFn params body _ _ _ =>
      let (fe, ti1) := tiChild ti env
      let (ps, ti2) := inferFnParams ti1 fe params
      (match body with
       | .blockN bb _ _ =>
           let (be, tiB) := tiChild ti2 fe
           (match inferStmts tiB be bb with
            | .ok (_, ti3) => .ok (Ty.fnT ps Ty.any, ti3)
            | .err e => .err e
            | .outOfFuel => .outOfFuel)
       | other =>
           (match inferExpr ti2 fe other with
            | .ok (_, ti3) => .ok (Ty.fnT ps Ty.any, ti3)
            | .err e => .err e
            | .outOfFuel => .outOfFuel))
  | .awaitE _ _ _ => .ok (Ty.any, ti)
  | .pipelineE _ _ _ _ => .ok (Ty.any, ti)
  | .spreadE _ _ _ => .ok (Ty.any, ti)
  | .sequenceE es _ _ => inferSeqLast ti env es
  | _ => .ok (Ty.any, ti)

/-- The `SequenceExpr` case: the last expression's type (`void` when the
list is empty). -/
def inferSeqLast (ti : TI) (env : Nat) (l : List Node) : JsRes (Ty × TI) :=
  match l with
  | [] => .ok (Ty.prim "void", ti)
  | [e] => inferExpr ti env e
  | _ :: rest => inferSeqLast ti env rest

def inferOptExprList (ti : TI) (env : Nat) (l : List (Option Node)) :
    JsRes (List Ty × TI) :=
  match l with
  | [] => .ok ([], ti)
  | some e :: rest =>
      (match inferExpr ti env e with
       | .ok (t, ti1) =>
           (match inferOptExprList ti1 env rest with
            | .ok (ts, ti2) => .ok (t :: ts, ti2)
            | .err er => .err er
            | .outOfFuel => .outOfFuel)
       | .err er => .err er
       | .outOfFuel => .outOfFuel)
  | none :: rest => inferOptExprList ti env rest

/-- The field walk of the `ObjectLit` case of `inferExpr`. -/
def inferObjProps (ti : TI) (env : Nat) (props : List Node) :
    JsRes (List (String × Ty) × TI) :=
  match props with
  | [] => .ok ([], ti)
  | .propP k v _ :: rest =>
      (match inferExpr ti env v with
       | .ok (t, ti1) =>
           (match inferObjProps ti1 env rest with
            | .ok (fs, ti2) => .ok (tyMapSet fs k t, ti2)
            | .err er => .err er
            | .outOfFuel => .outOfFuel)
       | .err er => .err er
       | .outOfFuel => .outOfFuel)
  | .propShorthand k :: rest =>
      let t := (tiGetVar ti env k).getD Ty.any
      (match inferObjProps ti env rest with
       | .ok (fs, ti2) => .ok (tyMapSet fs k t, ti2)
       | .err er => .err er
       | .outOfFuel => .outOfFuel)
  | _ :: rest => inferObjProps ti env rest

end

/-- `TypeInferer.check(ast, opts)` from `typeinfer.js`: reset the error and
warning lists, infer the program, return the diagnostics.  A fresh inferer
state is used (the driver constructs one `TypeInferer` per `Compiler`; a
single `compileSource` run is modelled). -/
def tiCheck (ast : Node) (strict : Bool) : JsRes (List TyDiag × List TyDiag) :=
  let body := match ast with
    | .program b _ _ => b
    | _ => []
  let ti0 := tiInit strict
  let ti1 := hoistDeclsAll ti0 0 body
  match inferStmts ti1 0 body with
  | .ok (_, ti2) => .ok (ti2.errors, ti2.warnings)
  | .err e => .err e
  | .outOfFuel => .outOfFuel



/-! ## Code generator (src `codegen.js`) -/

/-- Code-generator context: `rnd` models the `Math.floor(Math.random()*9999)`
fallback used for the match-subject name when the node has no line. -/
structure CG where
  rnd : Nat

/-- Two-space indentation: `this.pad(n)`. -/
def padStr (n : Nat) : String := String.mk (List.replicate (2 * n) ' ')

def hexDigit (n : Nat) : Char :=
  if n < 10 then Char.ofNat ('0'.toNat + n) else Char.ofNat ('a'.toNat + n - 10)

def hex4 (n : Nat) : String :=
  String.mk [hexDigit (n / 4096 % 16), hexDigit (n / 256 % 16), hexDigit (n / 16 % 16), hexDigit (n % 16)]

/-- `JSON.stringify` of a string value. -/
def jsonEscChar (c : Char) : String :=
  if c = '"' then "\\\""
  else if c = '\\' then "\\\\"
  else if c = '\n' then "\\n"
  else if c = '\t' then "\\t"
  else if c = '\r' then "\\r"
  else if c = '\x08' then "\\b"
  else if c = '\x0c' then "\\f"
  else if c.toNat < 32 then "\\u" ++ hex4 c.toNat
  else String.mk [c]

def jsonQuote (s : String) : String :=
  "\"" ++ String.join (s.data.map jsonEscChar) ++ "\""

/-- `JSON.stringify` of a NUMBER token value (integers print canonically;
for the fraction/exponent paths the cleaned source text is kept). -/
def jsonNumber : TokValue → String
  | .int i => toString i
  | .bigintV i => toString i
  | .floatRaw raw => raw
  | _ => "null"

/-- The `PREC` table inside `genExprParens` (`PREC[op] || 0`). -/
def PREC (op : String) : Nat :=
  match op with
  | "||" => 3
  | "&&" => 4
  | "|" => 5
  | "^" => 6
  | "&" => 7
  | "==" | "!=" | "===" | "!==" => 8
  | "<" | ">" | "<=" | ">=" => 9
  | "<<" | ">>" | ">>>" => 10
  | "+" | "-" => 11
  | "*" | "/" | "%" => 12
  | "**" => 13
  | _ => 0

/-- `JSON.stringify` of a match-pattern literal value. -/
def jsonLit : LitV → String
  | .nullL => "null"
  | .undefL => "undefined"
  | .boolL b => if b then "true" else "false"
  | .numL v => jsonNumber v
  | .strL s => jsonQuote s

/-- The wrapper `genBlock` puts around a non-`Block` node. -/
def genWrapStmt (code : String) (pad : Nat) : String :=
  let p := padStr pad
  "\x7b\n" ++ p ++ "  " ++ code ++ ";\n" ++ p ++ "\x7d"

/-- `hasBindings`: `mc.patterns.some(p => p.kind ∈ {object, array, binding, variant})`. -/
def patHasBindings (p : Node) : Bool :=
  match p with
  | .patObject _ => true
  | .patArray _ => true
  | .patBinding _ => true
  | .patVariant _ _ => true
  | _ => false

mutual

/-- `genMatchPattern(subj, pat)` from `codegen.js`. -/
def genMatchPattern (subj : String) (p : Node) : String :=
  match p with
  | .patLiteral .nullL => subj ++ " === null"
  | .patLiteral .undefL => subj ++ " === undefined"
  | .patLiteral v => subj ++ " === " ++ jsonLit v
  | .patBinding _ => "true"
  | .patWildcard => "true"
  | .patEnumVal path => subj ++ " === " ++ path
  | .patVariant name fields =>
      let tagCheck := subj ++ " && " ++ subj ++ "._tag === " ++ jsonQuote name
      String.intercalate " && " (tagCheck :: genMatchPatternFields subj 0 fields)
  | .patArray items =>
      String.intercalate " && "
        (("Array.isArray(" ++ subj ++ ")") :: genMatchPatternArray subj 0 items)
  | .patObject props =>
      String.intercalate " && "
        ((subj ++ " !== null && typeof " ++ subj ++ " === 'object'") ::
          genMatchObjectChecks subj props)
  | _ => "true"

def genMatchPatternList (subj : String) (pats : List Node) : List String :=
  match pats with
  | [] => []
  | p :: rest => genMatchPattern subj p :: genMatchPatternList subj rest

/-- The recursive field checks of the `variant` case: field `i` is checked
against `subj._i`. -/
def genMatchPatternFields (subj : String) (i : Nat) (fields : List Node) : List String :=
  match fields with
  | [] => []
  | f :: rest =>
      genMatchPattern (subj ++ "._" ++ toString i) f ::
        genMatchPatternFields subj (i + 1) rest

/-- The item checks of the `array` case (`rest` items are skipped but keep
their index). -/
def genMatchPatternArray (subj : String) (i : Nat) (items : List Node) : List String :=
  match items with
  | [] => []
  | .patRest _ :: rest => genMatchPatternArray subj (i + 1) rest
  | it :: rest =>
      genMatchPattern (subj ++ "[" ++ toString i ++ "]") it ::
        genMatchPatternArray subj (i + 1) rest

def genMatchObjectChecks (subj : String) (props : List Node) : List String :=
  match props with
  | [] => []
  | .patProp key _ :: rest =>
      (subj ++ "." ++ key.getD "null" ++ " !== undefined") :: genMatchObjectChecks subj rest
  | _ :: rest => genMatchObjectChecks subj rest

end

mutual

/-- `genMatchBindingDecls(subj, pat)` from `codegen.js`.  In the `array`
case the source tests `item.rest`, a field the parser never sets (a rest
pattern is `{kind:'rest', name}` without a `rest` property), so every item
that carries a `name` field — binding, rest and variant patterns — binds
`const name = subj[i];`. -/
def genMatchBindingDecls (subj : String) (p : Node) : List String :=
  match p with
  | .patBinding nm => ["const " ++ nm ++ " = " ++ subj ++ ";"]
  | .patVariant _ fields => genMatchBindingFields subj 0 fields
  | .patArray items => genMatchBindingArray subj 0 items
  | .patObject props => genMatchBindingObject subj props
  | _ => []

def genMatchBindingDeclsList (subj : String) (pats : List Node) : List String :=
  match pats with
  | [] => []
  | p :: rest => genMatchBindingDecls subj p ++ genMatchBindingDeclsList subj rest

/-- The recursive bindings of the `variant` case: field `i` binds from
`subj._i`. -/
def genMatchBindingFields (subj : String) (i : Nat) (fields : List Node) : List String :=
  match fields with
  | [] => []
  | f :: rest =>
      genMatchBindingDecls (subj ++ "._" ++ toString i) f ++
      genMatchBindingFields subj (i + 1) rest

def genMatchBindingArray (subj : String) (i : Nat) (items : List Node) : List String :=
  match items with
  | [] => []
  | it :: rest =>
      let here := match it with
        | .patBinding nm => ["const " ++ nm ++ " = " ++ subj ++ "[" ++ toString i ++ "];"]
        | .patRest nm => ["const " ++ nm ++ " = " ++ subj ++ "[" ++ toString i ++ "];"]
        | .patVariant nm _ => ["const " ++ nm ++ " = " ++ subj ++ "[" ++ toString i ++ "];"]
        | _ => []
      here ++ genMatchBindingArray subj (i + 1) rest

def genMatchBindingObject (subj : String) (props : List Node) : List String :=
  match props with
  | [] => []
  | .patProp key aliasN :: rest =>
      let localName := (aliasN.orElse (fun _ => key)).getD "null"
      ("const " ++ localName ++ " = " ++ subj ++ "." ++ key.getD "null" ++ ";") ::
        genMatchBindingObject subj rest
  | _ :: rest => genMatchBindingObject subj rest

end

mutual

/-- A generous fuel bound for the fuelled printer functions below (one unit
per node). -/
def nodeWeight : Node → Nat
  | .program b _ _ => 1 + nodeWeightList b
  | .varDecl _ _ i d _ _ _ => 1 + nodeWeightOpt i + nodeWeightOpt d
  | .multiVarDecl ds _ _ _ => 1 + nodeWeightList ds
  | .fnDecl _ ps _ b _ _ _ => 1 + nodeWeightList ps + nodeWeight b
  | .param _ _ dv _ _ => 1 + nodeWeightOpt dv
  | .blockN b _ _ => 1 + nodeWeightList b
  | .returnStmt v _ _ => 1 + nodeWeightOpt v
  | .exprStmt e _ _ => 1 + nodeWeight e
  | .matchStmt s cs _ _ => 1 + nodeWeight s + nodeWeightList cs
  | .matchCase ps g b _ => 1 + nodeWeightList ps + nodeWeightOpt g + nodeWeight b
  | .patVariant _ fs => 1 + nodeWeightList fs
  | .patArray its => 1 + nodeWeightList its
  | .patObject prs => 1 + nodeWeightList prs
  | .binaryE _ l r _ _ => 1 + nodeWeight l + nodeWeight r
  | .unaryE _ a _ _ _ => 1 + nodeWeight a
  | .assignE l _ r _ _ => 1 + nodeWeight l + nodeWeight r
  | .ternaryE t c a _ _ => 1 + nodeWeight t + nodeWeight c + nodeWeight a
  | .pipelineE l r _ _ => 1 + nodeWeight l + nodeWeight r
  | .callE c args _ _ _ => 1 + nodeWeight c + nodeWeightList args
  | .memberE o _ pc _ _ _ => 1 + nodeWeight o + nodeWeightOpt pc
  | .arrayLit els _ _ => 1 + nodeWeightOptList els
  | .objectLit prs _ _ => 1 + nodeWeightList prs
  | .propP _ v _ => 1 + nodeWeight v
  | .propSpread a => 1 + nodeWeight a
  | .propMethod _ ps b _ _ => 1 + nodeWeightList ps + nodeWeight b
  | .arrowFn ps b _ _ _ => 1 + nodeWeightList ps + nodeWeight b
  | .sequenceE es _ _ => 1 + nodeWeightList es
  | .spreadE a _ _ => 1 + nodeWeight a
  | .awaitE a _ _ => 1 + nodeWeight a
  | .yieldE a _ _ _ => 1 + nodeWeight a
  | .bindingE o _ _ _ => 1 + nodeWeight o
  | _ => 1

def nodeWeightList : List Node → Nat
  | [] => 1
  | n :: ns => 1 + nodeWeight n + nodeWeightList ns

def nodeWeightOpt : Option Node → Nat
  | none => 1
  | some n => 1 + nodeWeight n

def nodeWeightOptList : List (Option Node) → Nat
  | [] => 1
  | n :: ns => 1 + nodeWeightOpt n + nodeWeightOptList ns

end

mutual

/-- `genStmt(node, pad)` from `codegen.js` (modelled statement subset; the
default case emits the node as an expression statement, fuelled because the
node itself is re-dispatched to `genExpr`; the wrapper below always supplies
sufficient fuel). -/
def genStmtF (fuel : Nat) (cg : CG) (pad : Nat) (n : Node) : String :=
  match fuel with
  | 0 => ""
  | f+1 =>
      let p := padStr pad
      match n with
      | .varDecl name _ init _ isConst _ _ =>
          let kw := if isConst then "const" else "let"
          let initStr := match init with
            | some e => " = " ++ genExprF f cg e
            | none => ""
          p ++ kw ++ " " ++ name.getD "undefined" ++ initStr ++ ";\n"
      | .multiVarDecl ds _ _ _ => String.intercalate "\n" (genStmtListF f cg pad ds)
      | .fnDecl name params _ body isAsync _ _ =>
          let a := if isAsync then "async " else ""
          let ps := genParamsF f cg params
          let bodyStr := match body with
            | .blockN bb _ _ => genBlockBodyF f cg pad bb
            | other => genWrapStmt (genExprF f cg other) pad
          (match name with
           | none => p ++ a ++ "function(" ++ ps ++ ") " ++ bodyStr
           | some nm => p ++ a ++ "function " ++ nm ++ "(" ++ ps ++ ") " ++ bodyStr ++ "\n")
      | .returnStmt v _ _ =>
          p ++ "return" ++ (match v with | some e => " " ++ genExprF f cg e | none => "") ++ ";\n"
      | .matchStmt subject cases line _ =>
          -- `genMatch` from `codegen.js`: a fresh subject binding and an
          -- `if`/`else if` cascade over the cases
          let subj := "_ntl_m" ++ toString (if line ≠ 0 then line else cg.rnd)
          let intro := p ++ "\x7b\n" ++ p ++ "  const " ++ subj ++ " = " ++ genExprF f cg subject ++ ";\n"
          intro ++ genMatchCaseListF f cg pad subj true cases ++ p ++ "\x7d\n"
      | .breakStmt _ _ => p ++ "break;\n"
      | .continueStmt _ _ => p ++ "continue;\n"
      | .blockN bb _ _ => genBlockBodyF f cg pad bb
      | .exprStmt e _ _ => p ++ genExprF f cg e ++ ";\n"
      | other => p ++ genExprF f cg other ++ ";\n"
termination_by structural fuel

def genStmtListF (fuel : Nat) (cg : CG) (pad : Nat) (l : List Node) : List String :=
  match fuel with
  | 0 => []
  | f+1 =>
      match l with
      | [] => []
      | s :: rest => genStmtF f cg pad s :: genStmtListF f cg pad rest
termination_by structural fuel

/-- The `Block` branch of `genBlock(node, pad)`. -/

def genBlockBodyF (fuel : Nat) (cg : CG) (pad : Nat) (bb : List Node) : String :=
  match fuel with
  | 0 => ""
  | f+1 =>
      let p := padStr pad
      let body := String.join ((genStmtListF f cg (pad + 1) bb).filter (fun s => s ≠ ""))
      "\x7b\n" ++ body ++ p ++ "\x7d"
termination_by structural fuel

/-- The case loop of `genMatch`. -/

def genMatchCaseListF (fuel : Nat) (cg : CG) (pad : Nat) (subj : String) (first : Bool)
    (cases : List Node) : String :=
  match fuel with
  | 0 => ""
  | f+1 =>
      let p := padStr pad
      match cases with
      | [] => ""
      | .matchCase pats guard body isDefault :: rest =>
          let chunk :=
            if isDefault then
              let bodyLines := match body with
                | .blockN bb _ _ => String.join (genStmtListF f cg (pad + 2) bb)
                | other => genStmtF f cg (pad + 2) other
              p ++ "  " ++ (if first then "" else "else ") ++ "\x7b\n" ++ bodyLines ++ p ++ "  \x7d\n"
            else
              let conds := String.intercalate " || " (genMatchPatternList subj pats)
              let bindDecls := genMatchBindingDeclsList subj pats
              let guardStr := match guard with
                | some g => " && (" ++ genExprF f cg g ++ ")"
                | none => ""
              let kw := if first then "if" else "else if"
              let hasBindings := pats.any patHasBindings
              if bindDecls.length > 0 ∨ guard.isSome ∨ hasBindings then
                let bindLines := String.join (bindDecls.map (fun bd => p ++ "    " ++ bd ++ "\n"))
                let bodyLines := match guard with
                  | some g =>
                      let inner := match body with
                        | .blockN bb _ _ => String.join (genStmtListF f cg (pad + 4) bb)
                        | other => genStmtF f cg (pad + 4) other
                      p ++ "    if(" ++ genExprF f cg g ++ ") \x7b\n" ++ inner ++ p ++ "    \x7d\n"
                  | none =>
                      match body with
                      | .blockN bb _ _ => String.join (genStmtListF f cg (pad + 2) bb)
                      | other => genStmtF f cg (pad + 2) other
                p ++ "  " ++ kw ++ " (" ++ conds ++ ") \x7b\n" ++ bindLines ++ bodyLines ++ p ++ "  \x7d\n"
              else
                let blockStr := match body with
                  | .blockN bb _ _ => genBlockBodyF f cg (pad + 2) bb
                  | other => genWrapStmt (genExprF f cg other) (pad + 2)
                p ++ "  " ++ kw ++ " (" ++ conds ++ guardStr ++ ") " ++ blockStr ++ "\n"
          chunk ++ genMatchCaseListF f cg pad subj false rest
      | _ :: rest => genMatchCaseListF f cg pad subj false rest
termination_by structural fuel

/-- `genParams(params)` from `codegen.js`. -/

def genParamsF (fuel : Nat) (cg : CG) (params : List Node) : String :=
  match fuel with
  | 0 => ""
  | f+1 => String.intercalate ", " (genParamListF f cg params)
termination_by structural fuel

def genParamListF (fuel : Nat) (cg : CG) (params : List Node) : List String :=
  match fuel with
  | 0 => []
  | f+1 =>
      match params with
      | [] => []
      | .param nm _ dv rest _ :: ps =>
          let base := if rest then "..." ++ nm else nm
          let withDefault := match dv with
            | some e => base ++ " = " ++ genExprF f cg e
            | none => base
          withDefault :: genParamListF f cg ps
      | _ :: ps => genParamListF f cg ps
termination_by structural fuel

/-- `genObjectLit(node)` from `codegen.js` (no computed keys in the
modelled subset). -/

def genObjectLitPropsF (fuel : Nat) (cg : CG) (props : List Node) : List String :=
  match fuel with
  | 0 => []
  | f+1 =>
      match props with
      | [] => []
      | .propSpread a :: rest => ("..." ++ genExprF f cg a) :: genObjectLitPropsF f cg rest
      | .propShorthand k :: rest => k :: genObjectLitPropsF f cg rest
      | .propMethod k params body isGet isSet :: rest =>
          let pre := if isGet then "get " else if isSet then "set " else ""
          let ps := genParamsF f cg params
          let bodyStr := match body with
            | .blockN bb _ _ => genBlockBodyF f cg 1 bb
            | other => genWrapStmt (genExprF f cg other) 1
          (pre ++ k ++ "(" ++ ps ++ ") " ++ bodyStr) :: genObjectLitPropsF f cg rest
      | .propP k v _ :: rest => (k ++ ": " ++ genExprF f cg v) :: genObjectLitPropsF f cg rest
      | _ :: rest => "" :: genObjectLitPropsF f cg rest
termination_by structural fuel

/-- `genExpr(node)` from `codegen.js` (modelled expression subset; template
literals re-enter the full pipeline in the source and are left as an opaque
marker — no theorem emits one). -/

def genExprF (fuel : Nat) (cg : CG) (n : Node) : String :=
  match fuel with
  | 0 => ""
  | f+1 =>
      match n with
      | .numberLit v _ _ =>
          (match v with
           | .bigintV i => toString i ++ "n"
           | other => jsonNumber other)
      | .stringLit s _ _ => jsonQuote s
      | .boolLit b _ _ => if b then "true" else "false"
      | .nullLit _ _ => "null"
      | .undefinedLit _ _ => "undefined"
      | .identifier nm _ _ => nm
      | .templateLit _ _ _ => "`<template-not-modelled>`"
      | .arrayLit els _ _ => "[" ++ String.intercalate ", " (genOptExprListF f cg els) ++ "]"
      | .objectLit props _ _ =>
          "\x7b " ++ String.intercalate ", " (genObjectLitPropsF f cg props) ++ " \x7d"
      | .memberE obj propName propC optional _ _ =>
          let o := genExprF f cg obj
          (match propC with
           | some pe => o ++ (if optional then "?.[" else "[") ++ genExprF f cg pe ++ "]"
           | none => o ++ (if optional then "?." else ".") ++ propName.getD "undefined")
      | .callE callee args optional _ _ =>
          let argStr := String.intercalate ", " (genExprListF f cg args)
          let calleeStr := genExprF f cg callee
          if optional then calleeStr ++ "?.(" ++ argStr ++ ")"
          else calleeStr ++ "(" ++ argStr ++ ")"
      | .binaryE op l r _ _ =>
          genExprParensF f cg l (some op) ++ " " ++ op ++ " " ++ genExprParensF f cg r (some op)
      | .unaryE op a isPre _ _ =>
          let argStr := genExprF f cg a
          if isPre ∧ (op = "++" ∨ op = "--") then op ++ argStr
          else if op = "++" ∨ op = "--" then argStr ++ op
          else if ["typeof","void","delete","throw"].contains op then op ++ " " ++ argStr
          else op ++ argStr
      | .assignE l op r _ _ => genExprF f cg l ++ " " ++ op ++ " " ++ genExprF f cg r
      | .ternaryE t c a _ _ =>
          -- the parent passed for the test is `{precedence:4}`: it has no `op`
          genExprParensF f cg t none ++ " ? " ++ genExprF f cg c ++ " : " ++ genExprF f cg a
      | .awaitE a _ _ => "await " ++ genExprF f cg a
      | .yieldE a delegate _ _ => "yield" ++ (if delegate then "*" else "") ++ " " ++ genExprF f cg a
      | .spreadE a _ _ => "..." ++ genExprF f cg a
      | .pipelineE l r _ _ => "(" ++ genExprF f cg r ++ ")(" ++ genExprF f cg l ++ ")"
      | .sequenceE es _ _ => "(" ++ String.intercalate ", " (genExprListF f cg es) ++ ")"
      | .bindingE obj m _ _ =>
          genExprF f cg obj ++ "." ++ m ++ ".bind(" ++ genExprF f cg obj ++ ")"
      | .arrowFn params body isAsync _ _ =>
          -- `genArrowFn` from `codegen.js`
          let a := if isAsync then "async " else ""
          let ps := genParamsF f cg params
          let paramStr := match params with
            | [.param nm none none false _] => nm
            | _ => "(" ++ ps ++ ")"
          (match body with
           | .blockN bb _ _ => a ++ paramStr ++ " => " ++ genBlockBodyF f cg 0 bb
           | other => a ++ paramStr ++ " => " ++ genExprF f cg other)
      | .patBinding nm => nm
      | .patVariant nm _ => nm
      | .patRest nm => nm
      | _ => ""
termination_by structural fuel

def genExprListF (fuel : Nat) (cg : CG) (l : List Node) : List String :=
  match fuel with
  | 0 => []
  | f+1 =>
      match l with
      | [] => []
      | e :: rest => genExprF f cg e :: genExprListF f cg rest
termination_by structural fuel

def genOptExprListF (fuel : Nat) (cg : CG) (l : List (Option Node)) : List String :=
  match fuel with
  | 0 => []
  | f+1 =>
      match l with
      | [] => []
      | some e :: rest => genExprF f cg e :: genOptExprListF f cg rest
      | none :: rest => "" :: genOptExprListF f cg rest
termination_by structural fuel

/-- `genExprParens(node, parent)` from `codegen.js`: parenthesize a child
`BinaryExpr` exactly when its operator's precedence is strictly lower than
the parent operator's (`parentOp = none` models a parent without an `op`
field, such as the ternary's `{precedence:4}`). -/

def genExprParensF (fuel : Nat) (cg : CG) (n : Node) (parentOp : Option String) : String :=
  match fuel with
  | 0 => ""
  | f+1 =>
      let code := genExprF f cg n
      match n, parentOp with
      | .binaryE op _ _ _ _, some pop =>
          if PREC op < PREC pop then "(" ++ code ++ ")" else code
      | _, _ => code
termination_by structural fuel

end

/-- `genExpr` with the always-sufficient fuel bound. -/
def genExpr (cg : CG) (n : Node) : String := genExprF (nodeWeight n + 2) cg n

/-- `genStmt` with the always-sufficient fuel bound. -/
def genStmt (cg : CG) (pad : Nat) (n : Node) : String :=
  genStmtF (nodeWeight n + 2) cg pad n

/-- `gen(node)` from `codegen.js`. -/
def genTop (cg : CG) (n : Node) : String :=
  match n with
  | .program body _ _ =>
      String.intercalate "\n"
        ((genStmtListF (nodeWeightList body + 2) cg 0 body).filter (fun s => s ≠ ""))
  | other => genStmt cg 0 other

/-! ## Compiler driver (the `Compiler` class, src `error.js` companion doc)

The driver is modelled for the default `node` target (no ESM rewriting) and
without the wall-clock `time` field.  `TreeShaker.generateRuntime` returns
the empty string for every analysis result, so the runtime prelude never
contributes to the output. -/

/-- One element of a result's `errors` array.  The source keeps
heterogeneous plain objects in a single array: `_wrapErr` records for caught
exceptions, the scope analyzer's own error objects (with `file`/`sourceLines`
added, which carry no information here), and the type inferer's diagnostics
(with `phase: 'type'` added). -/
inductive Diag where
  | wrapped (e : JsErr)
  | scope (e : ScopeErr)
  | typed (d : TyDiag)
deriving DecidableEq, Repr

/-- `_wrapErr(e, lines, filename)` (fields `file` and `sourceLines` are
presentational and elided; the modelled lex and parse errors carry no
`suggestion` or `code`). -/
def wrapErr (e : JsErr) : JsErr :=
  { e with phase := if e.phase = "" then "compile" else e.phase }

/-- `compileSource`'s result object.  `target` and `stats` are present only
on the success path (`_fail` returns an object without them). -/
structure CompileResult where
  success : Bool
  code : Option String
  ast : Option Node
  errors : List Diag
  warnings : List TyDiag
  target : Option String
  statsLines : Option Nat
  statsChars : Option Nat
  statsOutputChars : Option Nat

/-- `_fail(errors, start)`: `{success:false, code:null, ast:null, errors,
warnings: []}`. -/
def failRes (errors : List Diag) : CompileResult :=
  { success := false, code := none, ast := none, errors := errors,
    warnings := [], target := none,
    statsLines := none, statsChars := none, statsOutputChars := none }

/-- `_minify(code)`: trim every line, drop the empty ones, re-join (the
final blank-run replacement is a no-op after the filter). -/
def jsMinify (code : String) : String :=
  String.intercalate "\n" (((strSplitChar '\n' code).map (fun l => strTrim l)).filter (fun l => l ≠ ""))

/-- The modelled compiler options (`target` fixed to `node`). -/
structure COpts where
  strict : Bool
  typeCheck : Bool
  minify : Bool
deriving DecidableEq, Repr

/-- The phases of `compileSource` after a successful parse: scope analysis
(a nonempty error list fails), the type check when `strict` or `typeCheck`
is set — the ONLY phase whose call is not inside a `try`/`catch`, so its
`.err` propagates as an exception of `compileSource` itself — then code
generation and assembly of the success object. -/
def compileAfterParse (source : String) (ast : Node) (opts : COpts) : JsRes CompileResult :=
  let scopeErrors := analyze ast
  if scopeErrors.length ≠ 0 then .ok (failRes (scopeErrors.map .scope))
  else
    match (if opts.strict || opts.typeCheck then tiCheck ast opts.strict
           else .ok ([], [])) with
    | .outOfFuel => .outOfFuel
    | .err e => .err e
    | .ok (typeErrors, typeWarnings) =>
      if typeErrors.length ≠ 0 then .ok (failRes (typeErrors.map .typed))
      else
        let code := genTop ⟨0⟩ ast
        let output := if opts.minify then jsMinify code else code
        .ok { success := true, code := some output, ast := some ast,
              errors := [], warnings := typeWarnings, target := some "node",
              statsLines := some (strSplitChar '\n' source).length,
              statsChars := some source.length,
              statsOutputChars := some output.length }

/-- `Compiler.compileSource(source, filename, opts)` from the driver.
`.ok r` models a normal return (`r.success` distinguishes `_fail` results),
`.err e` models an exception ESCAPING `compileSource`: the `tokenize`,
`parse` and codegen phases are wrapped in `try`/`catch`, but the
`this.typeChecker.check(ast, …)` call is not, so an exception raised inside
the type inferer propagates to the caller. -/
def compileSourceF (fuel : Nat) (source : String) (opts : COpts) : JsRes CompileResult :=
  match tokenizeF fuel source with
  | .outOfFuel => .outOfFuel
  | .err e => .ok (failRes [.wrapped (wrapErr e)])
  | .ok tokens =>
    match parseProgramF fuel tokens with
    | .outOfFuel => .outOfFuel
    | .err e => .ok (failRes [.wrapped (wrapErr e)])
    | .ok ast => compileAfterParse source ast opts

/-- The exception escaping a `compileSource` call, if any. -/
def resThrown : JsRes CompileResult → Option JsErr
  | .err e => some e
  | _ => none

/-- The decidable shadow of a normally returned result: success flag, code,
errors, warnings (`ast` is dropped). -/
def resSummary : JsRes CompileResult →
    Option (Bool × Option String × List Diag × List TyDiag)
  | .ok r => some (r.success, r.code, r.errors, r.warnings)
  | _ => none

/-! ## Observation helpers for the theorems -/

/-- Lex + parse: the AST `compileSource` hands to the analysis phases. -/
def compileAstF (fuel : Nat) (source : String) : JsRes Node :=
  match tokenizeF fuel source with
  | .ok tokens => parseProgramF fuel tokens
  | .err e => .err e
  | .outOfFuel => .outOfFuel

/-- Lex + parse + type check. -/
def checkTypesF (fuel : Nat) (source : String) (strict : Bool) :
    JsRes (List TyDiag × List TyDiag) :=
  match compileAstF fuel source with
  | .ok ast => tiCheck ast strict
  | .err e => .err e
  | .outOfFuel => .outOfFuel

/-- The operator skeleton of an expression: which operands each binary
operator combines.  Two expressions with the same skeleton have the same
evaluation order. -/
inductive OpTree where
  | leaf (s : String)
  | node (op : String) (l r : OpTree)
deriving DecidableEq, Repr

def toOpTree : Node → OpTree
  | .binaryE op l r _ _ => .node op (toOpTree l) (toOpTree r)
  | .identifier nm _ _ => .leaf nm
  | _ => .leaf ""

/-- The operator skeletons of a parsed program's expression statements. -/
def programOpTrees : Node → List OpTree
  | .program body _ _ =>
      body.filterMap (fun s => match s with
        | .exprStmt e _ _ => some (toOpTree e)
        | _ => none)
  | _ => []

mutual

/-- Does the name `x` occur as an `Identifier` expression node anywhere in
the tree? -/
def occursIdent (x : String) : Node → Bool
  | .identifier nm _ _ => nm == x
  | .program b _ _ => occursIdentList x b
  | .varDecl _ _ i d _ _ _ => occursIdentOpt x i || occursIdentOpt x d
  | .multiVarDecl ds _ _ _ => occursIdentList x ds
  | .fnDecl _ ps _ b _ _ _ => occursIdentList x ps || occursIdent x b
  | .param _ _ dv _ _ => occursIdentOpt x dv
  | .blockN b _ _ => occursIdentList x b
  | .returnStmt v _ _ => occursIdentOpt x v
  | .exprStmt e _ _ => occursIdent x e
  | .matchStmt s cs _ _ => occursIdent x s || occursIdentList x cs
  | .matchCase _ g b _ => occursIdentOpt x g || occursIdent x b
  | .binaryE _ l r _ _ => occursIdent x l || occursIdent x r
  | .unaryE _ a _ _ _ => occursIdent x a
  | .assignE l _ r _ _ => occursIdent x l || occursIdent x r
  | .ternaryE t c a _ _ => occursIdent x t || occursIdent x c || occursIdent x a
  | .pipelineE l r _ _ => occursIdent x l || occursIdent x r
  | .callE c args _ _ _ => occursIdent x c || occursIdentList x args
  | .memberE o _ pc _ _ _ => occursIdent x o || occursIdentOpt x pc
  | .arrayLit els _ _ => occursIdentOptList x els
  | .objectLit prs _ _ => occursIdentList x prs
  | .propP _ v _ => occursIdent x v
  | .propSpread a => occursIdent x a
  | .propMethod _ ps b _ _ => occursIdentList x ps || occursIdent x b
  | .arrowFn ps b _ _ _ => occursIdentList x ps || occursIdent x b
  | .sequenceE es _ _ => occursIdentList x es
  | .spreadE a _ _ => occursIdent x a
  | .awaitE a _ _ => occursIdent x a
  | .yieldE a _ _ _ => occursIdent x a
  | .bindingE o _ _ _ => occursIdent x o
  | _ => false

def occursIdentList (x : String) : List Node → Bool
  | [] => false
  | n :: ns => occursIdent x n || occursIdentList x ns

def occursIdentOpt (x : String) : Option Node → Bool
  | none => false
  | some n => occursIdent x n

def occursIdentOptList (x : String) : List (Option Node) → Bool
  | [] => false
  | n :: ns => occursIdentOpt x n || occursIdentOptList x ns

end

mutual

/-- Is the name `x` introduced by ANY declaring construct anywhere in the
tree (variable or function declaration, parameter, match binding, object
shorthand in a destructuring position)?  If this is false and `x` is not a
builtin, then no scope of any run of the analyzer over the tree can ever
hold a binding for `x`. -/
def declaresName (x : String) : Node → Bool
  | .program b _ _ => declaresNameList x b
  | .varDecl nm _ i d _ _ _ =>
      nm == some x || declaresNameOpt x i || declaresNameOpt x d
  | .multiVarDecl ds _ _ _ => declaresNameList x ds
  | .fnDecl nm ps _ b _ _ _ =>
      nm == some x || declaresNameList x ps || declaresName x b
  | .param nm _ dv _ _ => nm == x || declaresNameOpt x dv
  | .blockN b _ _ => declaresNameList x b
  | .returnStmt v _ _ => declaresNameOpt x v
  | .exprStmt e _ _ => declaresName x e
  | .matchStmt s cs _ _ => declaresName x s || declaresNameList x cs
  | .matchCase ps g b _ =>
      declaresNameList x ps || declaresNameOpt x g || declaresName x b
  | .patBinding nm => nm == x
  | .patVariant _ fs => declaresNameList x fs
  | .patRest nm => nm == x
  | .patArray its => declaresNameList x its
  | .patObject prs => declaresNameList x prs
  | .patProp key aliasN => key == some x || aliasN == some x
  | .binaryE _ l r _ _ => declaresName x l || declaresName x r
  | .unaryE _ a _ _ _ => declaresName x a
  | .assignE l _ r _ _ => declaresName x l || declaresName x r
  | .ternaryE t c a _ _ => declaresName x t || declaresName x c || declaresName x a
  | .pipelineE l r _ _ => declaresName x l || declaresName x r
  | .callE c args _ _ _ => declaresName x c || declaresNameList x args
  | .memberE o _ pc _ _ _ => declaresName x o || declaresNameOpt x pc
  | .arrayLit els _ _ => declaresNameOptList x els
  | .objectLit prs _ _ => declaresNameList x prs
  | .propP _ v _ => declaresName x v
  | .propShorthand k => k == x
  | .propSpread a => declaresName x a
  | .propMethod _ ps b _ _ => declaresNameList x ps || declaresName x b
  | .arrowFn ps b _ _ _ => declaresNameList x ps || declaresName x b
  | .sequenceE es _ _ => declaresNameList x es
  | .spreadE a _ _ => declaresName x a
  | .awaitE a _ _ => declaresName x a
  | .yieldE a _ _ _ => declaresName x a
  | .bindingE o _ _ _ => declaresName x o
  | _ => false

def declaresNameList (x : String) : List Node → Bool
  | [] => false
  | n :: ns => declaresName x n || declaresNameList x ns

def declaresNameOpt (x : String) : Option Node → Bool
  | none => false
  | some n => declaresName x n

def declaresNameOptList (x : String) : List (Option Node) → Bool
  | [] => false
  | n :: ns => declaresNameOpt x n || declaresNameOptList x ns

end


/-! ## JavaScript-value semantics of the emitted `match` cascade

The generator emits, per arm, a predicate string over the fresh subject
variable and a list of `const` binding declarations (see `genMatchPattern`
and `genMatchBindingDecls` above).  To state that a concrete emitted match
prints a value, the functions below give those emitted forms their
JavaScript meaning over a small value universe: `patPredSem v p` is the
value of the emitted predicate for pattern `p` with the subject variable
bound to `v`, and `patBindsSem v p` is the environment created by the
emitted `const` declarations; the mirrored structure follows the generator
case by case (`patEnumVal` compares the subject against an enum member in
scope, which has no counterpart in this closed universe; no theorem uses
it). -/

/-- Runtime values of the emitted program fragment. -/
inductive JVal where
  | numJ (n : Int)
  | strJ (s : String)
  | boolJ (b : Bool)
  | nullJ
  | undefJ
  | objJ (fields : List (String × JVal))
  | arrJ (items : List JVal)

/-- JavaScript `===` on the primitive values (objects compare by reference;
no theorem compares object values). -/
def jvalStrictEq : JVal → JVal → Bool
  | .numJ a, .numJ b => a == b
  | .strJ a, .strJ b => a == b
  | .boolJ a, .boolJ b => a == b
  | .nullJ, .nullJ => true
  | .undefJ, .undefJ => true
  | _, _ => false

/-- JavaScript truthiness. -/
def truthyJ : JVal → Bool
  | .numJ n => n != 0
  | .strJ s => s ≠ ""
  | .boolJ b => b
  | .nullJ => false
  | .undefJ => false
  | .objJ _ => true
  | .arrJ _ => true

/-- Property access `v.k` (missing property or non-object reads give
`undefined`; member reads on the primitives are not exercised). -/
def getFJ (v : JVal) (k : String) : JVal :=
  match v with
  | .objJ fs => ((fs.find? (fun p => p.1 == k)).map (fun p => p.2)).getD .undefJ
  | _ => .undefJ

/-- Index access `v[i]`. -/
def getIdxJ (v : JVal) (i : Nat) : JVal :=
  match v with
  | .arrJ l => l.getD i .undefJ
  | _ => .undefJ

def isArrayJ : JVal → Bool
  | .arrJ _ => true
  | _ => false

/-- `v !== null && typeof v === 'object'`. -/
def isObjLikeJ : JVal → Bool
  | .objJ _ => true
  | .arrJ _ => true
  | _ => false

/-- The value of a literal pattern's emitted literal. -/
def litSemVal : LitV → JVal
  | .nullL => .nullJ
  | .undefL => .undefJ
  | .boolL b => .boolJ b
  | .strL s => .strJ s
  | .numL (.int i) => .numJ i
  | .numL _ => .undefJ

mutual

/-- The value of the predicate emitted by `genMatchPattern subj p` when the
subject variable holds `v`. -/
def patPredSem (v : JVal) : Node → Bool
  | .patLiteral lv => jvalStrictEq v (litSemVal lv)
  | .patBinding _ => true
  | .patWildcard => true
  | .patEnumVal _ => false
  | .patVariant name fields =>
      truthyJ v && jvalStrictEq (getFJ v "_tag") (.strJ name) &&
        patPredFieldsSem v 0 fields
  | .patArray items => isArrayJ v && patPredArraySem v 0 items
  | .patObject props => isObjLikeJ v && patPredObjSem v props
  | _ => true

def patPredFieldsSem (v : JVal) (i : Nat) : List Node → Bool
  | [] => true
  | f :: rest => patPredSem (getFJ v ("_" ++ toString i)) f && patPredFieldsSem v (i + 1) rest

def patPredArraySem (v : JVal) (i : Nat) : List Node → Bool
  | [] => true
  | .patRest _ :: rest => patPredArraySem v (i + 1) rest
  | it :: rest => patPredSem (getIdxJ v i) it && patPredArraySem v (i + 1) rest

def patPredObjSem (v : JVal) : List Node → Bool
  | [] => true
  | .patProp key _ :: rest =>
      !(jvalStrictEq (getFJ v (key.getD "null")) .undefJ) && patPredObjSem v rest
  | _ :: rest => patPredObjSem v rest

end

mutual

/-- The environment created by the `const` declarations emitted by
`genMatchBindingDecls subj p` when the subject variable holds `v`. -/
def patBindsSem (v : JVal) : Node → List (String × JVal)
  | .patBinding nm => [(nm, v)]
  | .patVariant _ fields => patBindsFieldsSem v 0 fields
  | .patArray items => patBindsArraySem v 0 items
  | .patObject props => patBindsObjSem v props
  | _ => []

def patBindsFieldsSem (v : JVal) (i : Nat) : List Node → List (String × JVal)
  | [] => []
  | f :: rest =>
      patBindsSem (getFJ v ("_" ++ toString i)) f ++ patBindsFieldsSem v (i + 1) rest

def patBindsArraySem (v : JVal) (i : Nat) : List Node → List (String × JVal)
  | [] => []
  | it :: rest =>
      let here := match it with
        | .patBinding nm => [(nm, getIdxJ v i)]
        | .patRest nm => [(nm, getIdxJ v i)]
        | .patVariant nm _ => [(nm, getIdxJ v i)]
        | _ => []
      here ++ patBindsArraySem v (i + 1) rest

def patBindsObjSem (v : JVal) : List Node → List (String × JVal)
  | [] => []
  | .patProp key aliasN :: rest =>
      ((aliasN.orElse (fun _ => key)).getD "null", getFJ v (key.getD "null")) ::
        patBindsObjSem v rest
  | _ :: rest => patBindsObjSem v rest

end

/-- The value of an argument expression of a `console.log` call in an arm
body, in the binding environment of that arm. -/
def evalArgSem (env : List (String × JVal)) : Node → JVal
  | .identifier nm _ _ => ((env.find? (fun p => p.1 == nm)).map (fun p => p.2)).getD .undefJ
  | .numberLit (.int i) _ _ => .numJ i
  | .stringLit s _ _ => .strJ s
  | .boolLit b _ _ => .boolJ b
  | .nullLit _ _ => .nullJ
  | _ => .undefJ

mutual

/-- The `console.log` output of an executed arm body. -/
def evalLogs (env : List (String × JVal)) : Node → List JVal
  | .exprStmt (.callE (.memberE (.identifier nm _ _) (some "log") none false _ _)
      [a] false _ _) _ _ =>
      if nm = "console" then [evalArgSem env a] else []
  | .blockN bb _ _ => evalLogsList env bb
  | _ => []

def evalLogsList (env : List (String × JVal)) : List Node → List JVal
  | [] => []
  | s :: rest => evalLogs env s ++ evalLogsList env rest

end

/-- Running the emitted `if`/`else if` cascade on subject value `v`: the
first arm whose emitted predicate holds (an arm's patterns are joined with
`||`; a default arm is an unconditional `else`) executes its binding
declarations and then its body.  Arms with guards are not modelled (no
theorem uses one). -/
def matchCascadeRun (v : JVal) : List Node → List JVal
  | [] => []
  | .matchCase pats _ body isDefault :: rest =>
      if isDefault then evalLogs [] body
      else if pats.any (patPredSem v) then
        evalLogs (pats.flatMap (patBindsSem v)) body
      else matchCascadeRun v rest
  | _ :: rest => matchCascadeRun v rest

/-! ## Concrete scenario inputs

Each AST below is exactly the node the embedded parser produces for the
quoted program (the printer claims were cross-checked against
`parseProgramF` on the tokenized source). -/

/-- The AST of `val o = \x7b a: 1, b: zzz \x7d`. -/
def objTwoPropsAst : Node :=
  Node.program
    [Node.varDecl (some "o") none
      (some (Node.objectLit
        [Node.propP "a" (Node.numberLit (.int 1) 1 14) false,
         Node.propP "b" (Node.identifier "zzz" 1 20) false] 1 9))
      none true 1 1] 1 1

/-- The AST of `val o = \x7b b: zzz \x7d` (the undeclared identifier is in
the FIRST property). -/
def objOnePropAst : Node :=
  Node.program
    [Node.varDecl (some "o") none
      (some (Node.objectLit
        [Node.propP "b" (Node.identifier "zzz" 1 14) false] 1 9))
      none true 1 1] 1 1

/-- The AST of `f()` followed by `fn f() \x7b\x7d` on the next line. -/
def callThenFnAst : Node :=
  Node.program
    [Node.exprStmt (Node.callE (Node.identifier "f" 1 1) [] false 1 1) 1 1,
     Node.fnDecl (some "f") [] none (Node.blockN [] 2 8) false 2 1] 1 1

/-- The AST of `f()` followed by `val f = 1` on the next line. -/
def callThenValAst : Node :=
  Node.program
    [Node.exprStmt (Node.callE (Node.identifier "f" 1 1) [] false 1 1) 1 1,
     Node.varDecl (some "f") none (some (Node.numberLit (.int 1) 2 9))
       none true 2 1] 1 1

/-- The AST of `fn f() \x7b return username \x7d`. -/
def undefVarAst : Node :=
  Node.program
    [Node.fnDecl (some "f") []
      none
      (Node.blockN [Node.returnStmt (some (Node.identifier "username" 1 17)) 1 10] 1 8)
      false 1 1] 1 1

/-- The AST of `val x: number = "hi"`. -/
def strictNumAst : Node :=
  Node.program
    [Node.varDecl (some "x") (some "number")
      (some (Node.stringLit "hi" 1 17)) none true 1 1] 1 1

/-- The AST of `val x: any = "hi"`. -/
def strictAnyAst : Node :=
  Node.program
    [Node.varDecl (some "x") (some "any")
      (some (Node.stringLit "hi" 1 14)) none true 1 1] 1 1

/-- The AST of `fn g() -> A \x7b\x7d` followed by `g()` — the annotated
return type `A` names no global type. -/
def fnRetTypeAst : Node :=
  Node.program
    [Node.fnDecl (some "g") [] (some "A") (Node.blockN [] 1 13) false 1 1,
     Node.exprStmt (Node.callE (Node.identifier "g" 2 1) [] false 2 1) 2 1] 1 1

/-- An arm body `console.log(<x>)` of the scenario-4 match. -/
def sc4LogBody (xn : String) (l c : Nat) : Node :=
  Node.exprStmt
    (Node.callE
      (Node.memberE (Node.identifier "console" l c) (some "log") none false l c)
      [Node.identifier xn l (c + 12)] false l c) l c

/-- The `Ok(x)` and `Err(m)` arms of the scenario-4 match. -/
def sc4Cases : List Node :=
  [Node.matchCase [Node.patVariant "Ok" [Node.patBinding "x"]] none
     (sc4LogBody "x" 3 20) false,
   Node.matchCase [Node.patVariant "Err" [Node.patBinding "m"]] none
     (sc4LogBody "m" 3 45) false]

/-- The scenario-4 match statement, `match r \x7b case Ok(x) => … case
Err(m) => … \x7d` on line 3. -/
def sc4Match : Node := Node.matchStmt (Node.identifier "r" 3 9) sc4Cases 3 1

/-- The value of scenario 4's subject `r`, the object literal
`\x7b _tag: "Ok", _0: 42 \x7d`. -/
def sc4Subject : JVal := .objJ [("_tag", .strJ "Ok"), ("_0", .numJ 42)]

/-- The AST of the expression `a - (b - c)`: a right-nested child of equal
precedence. -/
def eqPrecAst : Node :=
  Node.binaryE "-" (Node.identifier "a" 1 1)
    (Node.binaryE "-" (Node.identifier "b" 1 6) (Node.identifier "c" 1 10) 1 6) 1 1

/-- The AST of the one-statement program `console` (an identifier
expression naming a builtin). -/
def consoleAst : Node :=
  Node.program [Node.exprStmt (Node.identifier "console" 1 1) 1 1] 1 1

/-- The AST of the one-statement program `zzz` (an undeclared identifier). -/
def zzzAst : Node :=
  Node.program [Node.exprStmt (Node.identifier "zzz" 1 1) 1 1] 1 1

/-- The character list of the four-character input `"\u\x7b` whose string
escape scanner never finds a closing brace. -/
def uBraceSrc : List Char := ['"', '\\', 'u', '\x7b']

/-- The first error of a failed lex/parse, with its location. -/
def parseFailure : JsRes Node → Option (String × Nat × Nat)
  | .err e => some (e.message, e.line, e.col)
  | _ => none

/-! ## Helper lemmas -/

/-- Once the cursor is at or past the end of the input, the `\u\x7b…\x7d`
scanner exhausts every budget: `peek()` returns the `'\0'` sentinel, never
`'\x7d'`, and `advance()` keeps moving the cursor further out. -/
theorem uBraceLoopF_past_end (st : LexState) (hex : String)
    (h : st.src.length ≤ st.pos) :
    ∀ fuel, uBraceLoopF fuel st hex = .outOfFuel := by
  intro fuel
  induction fuel generalizing st hex with
  | zero => rfl
  | succ f ih =>
      rw [uBraceLoopF]
      have hp : peekC st 0 = '\x00' := by
        simp only [peekC]
        exact List.getD_eq_default _ _ (by omega)
      rw [if_pos (by rw [hp]; decide)]
      have hnone : st.src[st.pos]? = none := List.getElem?_eq_none (by omega)
      have hadv : advanceC st = (none, { st with pos := st.pos + 1, col := st.col + 1 }) := by
        rw [advanceC, hnone]
      rw [hadv]
      exact ih _ _ (by simpa using Nat.le_succ_of_le h)

theorem readStringLoopF_uBrace_div :
    ∀ fuel, readStringLoopF '"' 1 1 fuel ⟨uBraceSrc, 1, 1, 2⟩ ⟨"", []⟩ = .outOfFuel := by
  intro fuel
  match fuel with
  | 0 => rfl
  | f+1 =>
      have hu : uBraceLoopF f ⟨['"', '\\', 'u', '\x7b'], 4, 1, 5⟩ "" = .outOfFuel :=
        uBraceLoopF_past_end ⟨uBraceSrc, 4, 1, 5⟩ "" (by decide) f
      simp only [readStringLoopF]
      simp [uBraceSrc, peekC, advanceC, adv1, appendAdv]
      rw [hu]

theorem readStringF_uBrace_div (fuel : Nat) :
    readStringF fuel ⟨uBraceSrc, 0, 1, 1⟩ '"' = .outOfFuel := by
  simp only [readStringF]
  have h1 : adv1 ⟨uBraceSrc, 0, 1, 1⟩ = ⟨uBraceSrc, 1, 1, 2⟩ := rfl
  rw [h1, readStringLoopF_uBrace_div fuel]

theorem tokenizeLoopF_uBrace_div :
    ∀ fuel, tokenizeLoopF fuel ⟨uBraceSrc, 0, 1, 1⟩ [] = .outOfFuel := by
  intro fuel
  match fuel with
  | 0 => rfl
  | 1 => rfl
  | f+2 =>
      have hs : skipWsF (f+1) ⟨uBraceSrc, 0, 1, 1⟩ = .ok ⟨uBraceSrc, 0, 1, 1⟩ := by
        rw [skipWsF]
        simp [uBraceSrc, peekC]
      have hrs : readStringF (f+1) ⟨['"', '\\', 'u', '\x7b'], 0, 1, 1⟩ '"' = .outOfFuel :=
        readStringF_uBrace_div (f+1)
      simp only [tokenizeLoopF]
      rw [hs]
      simp [uBraceSrc, peekC]
      rw [hrs]

/-- Character-level content of a match of the three-character operator
implies a match of the two-character one. -/
theorem opMatches_gg_of_ggg (st : LexState) (h : opMatches st ">>>" = true) :
    opMatches st ">>" = true := by
  have e3 : opMatches st ">>>" =
      (decide (peekC st 0 = '>') &&
        (decide (peekC st 1 = '>') && (decide (peekC st 2 = '>') && true))) := rfl
  have e2 : opMatches st ">>" =
      (decide (peekC st 0 = '>') && (decide (peekC st 1 = '>') && true)) := rfl
  rw [e3] at h
  rw [e2]
  simp at h ⊢
  exact ⟨h.1, h.2.1⟩

/-- `readOp` can never produce the token `>>>`: the first-match scan over
`MULTI_CHAR_OPS` reaches `">>"` (index 27) before `">>>"` (index 28), and
any cursor position that matches `">>>"` also matches `">>"`. -/
theorem readOp_never_unsignedShift (st : LexState) :
    ((readOp st).map (fun r => tokStr r.1 == ">>>")).getD false = false := by
  unfold readOp
  cases hf : MULTI_CHAR_OPS.find? (fun op => opMatches st op) with
  | none =>
      by_cases hs : SINGLE_OPS.contains (peekC st 0)
      · simp only [hs, if_true]
        simp [tokStr, tokStrCoerce]
        intro h
        have := congrArg String.length h
        simp [String.length] at this
      · have hmem : ¬ peekC st 0 ∈ SINGLE_OPS := by simpa using hs
        simp [hmem]
  | some op =>
      simp [tokStr, tokStrCoerce]
      intro hop
      subst hop
      rw [List.find?_eq_some] at hf
      obtain ⟨hp, as, bs, hsplit, hbefore⟩ := hf
      have h2 : opMatches st ">>" = true := opMatches_gg_of_ggg st hp
      have hn : ∀ n : Nat, MULTI_CHAR_OPS[n]? = some ">>>" → n = 28 := by
        intro n h
        rcases Nat.lt_or_ge n 34 with hlt | hge
        · interval_cases n <;> revert h <;> decide
        · have hnone : MULTI_CHAR_OPS[n]? = none := by
            apply List.getElem?_eq_none
            have h34 : MULTI_CHAR_OPS.length = 34 := rfl
            omega
          rw [hnone] at h
          cases h
      have hlen : as.length = 28 := by
        apply hn
        rw [hsplit, List.getElem?_append_right (Nat.le_refl _)]
        simp
      have has : as = MULTI_CHAR_OPS.take 28 := by
        have h3 := congrArg (fun l => List.take as.length l) hsplit
        simp only [List.take_left] at h3
        rw [hlen] at h3
        exact h3.symm
      have hmem : ">>" ∈ as := by rw [has]; decide
      have hfalse := hbefore _ hmem
      simp [h2] at hfalse

/-- With a positive budget, anything is assignable FROM `any`. -/
theorem isAssignableF_any_src (f : Nat) (tgt : Ty) :
    isAssignableF (f+1) Ty.any tgt = true := by
  cases tgt <;> simp [isAssignableF]

/-- With a positive budget, anything is assignable TO `any`. -/
theorem isAssignableF_any_tgt (f : Nat) (src : Ty) :
    isAssignableF (f+1) src Ty.any = true := by
  cases src <;> simp [isAssignableF]

/-! ## Claims -/

set_option maxHeartbeats 16000000 in
set_option maxRecDepth 16384 in
/-- Claim C1: the specification asserts scope soundness — an empty analyzer
error list means every identifier expression in the AST is declared by some
enclosing scope.  This fails: on the AST of `val o = \x7b a: 1, b: zzz \x7d`
the analyzer returns NO errors although `zzz` occurs as an identifier
expression, is declared nowhere in the program and is no builtin (so no
scope of any run can hold it).  The cause is the `break` inside the
`for`-loop of `visitExpr`'s `ObjectLit` case (`scope.js` line 311), which
stops after the FIRST property and then falls through into the `ArrowFn`
case; the same identifier in the first property (`val o = \x7b b: zzz \x7d`)
is reported. -/
theorem c1_objectLit_scope_unsound :
    analyze objTwoPropsAst = [] ∧
    occursIdent "zzz" objTwoPropsAst = true ∧
    declaresName "zzz" objTwoPropsAst = false ∧
    BUILTINS.contains "zzz" = false ∧
    (analyze objOnePropAst).map (fun e => (e.code, e.name, e.line, e.col)) =
      [("UNDEF_VAR", "zzz", 1, 14)] := by
  refine ⟨by decide, by decide, by decide, by decide, by decide⟩

set_option maxHeartbeats 16000000 in
set_option maxRecDepth 16384 in
/-- Claim C2: the specification asserts that `compileSource` never throws
and converts every phase failure into a `\x7bsuccess:false\x7d` result.
This fails: the `this.typeChecker.check` call is the one phase not wrapped
in `try`/`catch`, and on the program `fn g() -> A \x7b\x7d` + `g()` with
type checking enabled the inferer itself throws — `inferCall` passes the
callee's return-`Type` OBJECT to `parseTypeStr`, the `GLOBAL_TYPES[s]`
lookup coerces it to its printed form `A` and misses, and then
`s.endsWith` is not a function.  The first two conjuncts show the thrown
`TypeError` escaping the post-parse phases of `compileSource` and
originating in the type checker; the remaining three show the structured
results on paths that do not throw: a success object with code and stats,
a scope failure, and a lex failure caught and wrapped by the
`try`/`catch` around `tokenize`. -/
theorem c2_compileSource_throws :
    resThrown (compileAfterParse "fn g() -> A \x7b\x7d\ng()" fnRetTypeAst
        ⟨false, true, false⟩) =
      some ⟨false, "", "TypeError: s.endsWith is not a function", 0, 0⟩ ∧
    tiCheck fnRetTypeAst false =
      .err ⟨false, "", "TypeError: s.endsWith is not a function", 0, 0⟩ ∧
    resSummary (compileAfterParse "console" consoleAst ⟨false, true, false⟩) =
      some (true, some "console;\n", [], []) ∧
    resSummary (compileAfterParse "zzz" zzzAst ⟨false, false, false⟩) =
      some (false, none,
        [.scope
          { name := "zzz",
            message := "Variable 'zzz' is not defined",
            phase := "scope", code := "UNDEF_VAR", line := 1, col := 1,
            similar := [],
            suggestion :=
              ["Declare 'zzz' before using it:\n     > const zzz = <value>\n     > return zzz",
               "Pass 'zzz' as a function parameter:\n     > function doSomething(zzz) \x7b\n     >   return zzz\n     > \x7d"],
            exBad := none, exGood := none }], []) ∧
    resSummary (compileSourceF 300 "\\" ⟨false, false, false⟩) =
      some (false, none,
        [.wrapped ⟨true, "lex", "Unexpected character '\\'", 1, 1⟩], []) := by
  refine ⟨by decide, by decide, by decide, by decide, by decide⟩

set_option maxHeartbeats 16000000 in
set_option maxRecDepth 16384 in
/-- Claim C3: for a variant pattern the generated predicate is
`subj && subj._tag === "Name"` followed by the recursive checks on
`subj._0, subj._1, …`, binding-pattern fields bind `const name = subj._i;`,
and the match introduces a fresh subject binding; on the scenario-4 match
the two arms bind `const x = <subj>._0` and `const m = <subj>._0`, and
running the emitted cascade on the subject value
`\x7b _tag: "Ok", _0: 42 \x7d` prints `42` (via the JavaScript-value
semantics `matchCascadeRun` of the emitted forms). -/
theorem c3_match_variant_codegen :
    (∀ subj name fields,
      genMatchPattern subj (Node.patVariant name fields) =
        String.intercalate " && "
          ((subj ++ " && " ++ subj ++ "._tag === " ++ jsonQuote name) ::
            genMatchPatternFields subj 0 fields)) ∧
    (∀ subj i f rest,
      genMatchPatternFields subj i (f :: rest) =
        genMatchPattern (subj ++ "._" ++ toString i) f ::
          genMatchPatternFields subj (i + 1) rest) ∧
    (∀ subj name nm,
      genMatchBindingDecls subj (Node.patVariant name [Node.patBinding nm]) =
        ["const " ++ nm ++ " = " ++ subj ++ "._0;"]) ∧
    genStmt ⟨0⟩ 0 sc4Match =
      "\x7b\n  const _ntl_m3 = r;\n  if (_ntl_m3 && _ntl_m3._tag === \"Ok\" && true) \x7b\n    const x = _ntl_m3._0;\n    console.log(x);\n  \x7d\n  else if (_ntl_m3 && _ntl_m3._tag === \"Err\" && true) \x7b\n    const m = _ntl_m3._0;\n    console.log(m);\n  \x7d\n\x7d\n" ∧
    matchCascadeRun sc4Subject sc4Cases = [JVal.numJ 42] := by
  refine ⟨?_, ?_, ?_, by decide, rfl⟩
  · intro subj name fields
    simp [genMatchPattern]
  · intro subj i f rest
    simp [genMatchPatternFields]
  · intro subj name nm
    simp [genMatchBindingDecls, genMatchBindingFields, String.append_assoc,
      show toString (0:Nat) = "0" from rfl]

set_option maxHeartbeats 16000000 in
set_option maxRecDepth 16384 in
/-- Claim C4: the specification asserts that `a >>> b` lexes to a single
`>>>` operator token and parses to an unsigned-right-shift `BinaryExpr`.
This fails: `MULTI_CHAR_OPS` lists `">>"` (index 27) BEFORE `">>>"`
(index 28) and `readOp` takes the first match, so no cursor position can
ever produce a `>>>` token (first conjunct, over all lexer states);
`a >>> b` lexes to `a`, `>>`, `>`, `b` and the parse then fails with
`Unexpected token > (OPERATOR)` — the `'>>>'` case in the parser's
`parseShift` is unreachable. -/
theorem c4_unsigned_shift_unreachable :
    (∀ st : LexState, ((readOp st).map (fun r => tokStr r.1 == ">>>")).getD false = false) ∧
    (tokenizeF 300 "a >>> b").map (fun ts => ts.map (fun t => (t.type, tokStr t))) =
      .ok [(.identifier, "a"), (.operator, ">>"), (.operator, ">"),
           (.identifier, "b"), (.eof, "null")] ∧
    parseFailure (compileAstF 300 "a >>> b") =
      some ("Unexpected token '>' (OPERATOR)", 1, 5) := by
  refine ⟨readOp_never_unsignedShift, by decide, by decide⟩

set_option maxHeartbeats 16000000 in
set_option maxRecDepth 16384 in
/-- Claim C5: with strict mode on, `val x: number = "hi"` yields exactly one
`TYPE_MISMATCH` error (phase `type` is attached by the driver) and
`val x: any = "hi"` yields none; `isAssignable` treats `any` as
bidirectionally compatible for every type. -/
theorem c5_strict_any_bidirectional :
    tiCheck strictNumAst true =
      .ok ([{ message := "Type 'string' is not assignable to type 'number'",
              line := 1, code := "TYPE_MISMATCH" }], []) ∧
    tiCheck strictAnyAst true = .ok ([], []) ∧
    (∀ t : Ty, isAssignable t Ty.any = true ∧ isAssignable Ty.any t = true) := by
  refine ⟨by decide, by decide, ?_⟩
  intro t
  constructor
  · show isAssignableF (2 * (tySize t + tySize Ty.any) + 2) t Ty.any = true
    have h : 2 * (tySize t + tySize Ty.any) + 2 = (2 * (tySize t + 1) + 1) + 1 := by
      have h1 : tySize Ty.any = 1 := rfl
      omega
    rw [h]
    exact isAssignableF_any_tgt _ t
  · show isAssignableF (2 * (tySize Ty.any + tySize t) + 2) Ty.any t = true
    have h : 2 * (tySize Ty.any + tySize t) + 2 = (2 * (1 + tySize t) + 1) + 1 := by
      have h1 : tySize Ty.any = 1 := rfl
      omega
    rw [h]
    exact isAssignableF_any_src _ t

set_option maxHeartbeats 16000000 in
set_option maxRecDepth 16384 in
/-- Claim C6: `f()` before `fn f() \x7b\x7d` at the same block level is
clean because `_hoistAll` pre-declares function declarations, while `f()`
before `val f = 1` produces exactly one undeclared-identifier diagnostic
because variable declarations are not hoisted. -/
theorem c6_hoisting :
    analyze callThenFnAst = [] ∧
    (analyze callThenValAst).map (fun e => (e.code, e.name, e.line)) =
      [("UNDEF_VAR", "f", 1)] := by
  refine ⟨by decide, by decide⟩

set_option maxHeartbeats 16000000 in
set_option maxRecDepth 16384 in
/-- Claim C7 (amended): `genExprParens` wraps a child `BinaryExpr` in
parentheses exactly when the child operator's precedence is STRICTLY lower
than the parent operator's; a right-nested child of equal precedence is
emitted without parentheses, so re-parsing the emitted text does not in
general restore the original operator tree (see the counterexample
theorem). -/
theorem c7_parens_strictly_lower (f : Nat) (cg : CG) (op : String) (l r : Node)
    (li co : Nat) (pop : String) :
    genExprParensF (f+1) cg (Node.binaryE op l r li co) (some pop) =
      (if PREC op < PREC pop
       then "(" ++ genExprF f cg (Node.binaryE op l r li co) ++ ")"
       else genExprF f cg (Node.binaryE op l r li co)) := by
  simp [genExprParensF]

set_option maxHeartbeats 16000000 in
set_option maxRecDepth 16384 in
/-- Claim C7, counterexample: the original claim also asserts that the
emitted JavaScript re-parses to the same operator tree.  For
`a - (b - c)` the generator emits `a - b - c` (equal precedence, no
parentheses), which re-parses left-nested as `(a - b) - c` — a different
tree. -/
theorem c7_counterexample :
    genExpr ⟨0⟩ eqPrecAst = "a - b - c" ∧
    toOpTree eqPrecAst =
      OpTree.node "-" (OpTree.leaf "a")
        (OpTree.node "-" (OpTree.leaf "b") (OpTree.leaf "c")) ∧
    (compileAstF 300 "a - b - c").map programOpTrees =
      .ok [OpTree.node "-" (OpTree.node "-" (OpTree.leaf "a") (OpTree.leaf "b"))
             (OpTree.leaf "c")] ∧
    (OpTree.node "-" (OpTree.leaf "a")
        (OpTree.node "-" (OpTree.leaf "b") (OpTree.leaf "c")) ==
      OpTree.node "-" (OpTree.node "-" (OpTree.leaf "a") (OpTree.leaf "b"))
        (OpTree.leaf "c")) = false := by
  refine ⟨by decide, by decide, by decide, by decide⟩

set_option maxHeartbeats 16000000 in
set_option maxRecDepth 16384 in
/-- Claim C8 (amended): on `fn f() \x7b return username \x7d` the analyzer
produces exactly one diagnostic — phase `scope`, code `UNDEF_VAR`, at the
line and column of `username`, with an empty similar-names list and TWO
suggestions (the `else` branch of `use()` that fires when no similar names
exist builds two suggestion strings, not three). -/
theorem c8_undef_var_two_suggestions :
    analyze undefVarAst =
      [{ name := "username",
         message := "Variable 'username' is not defined",
         phase := "scope", code := "UNDEF_VAR", line := 1, col := 17,
         similar := [],
         suggestion :=
           ["Declare 'username' before using it:\n     > const username = <value>\n     > return username",
            "Pass 'username' as a function parameter:\n     > function doSomething(username) \x7b\n     >   return username\n     > \x7d"],
         exBad := none, exGood := none }] := by
  decide

set_option maxHeartbeats 16000000 in
set_option maxRecDepth 16384 in
/-- Claim C8, counterexample: the original claim asserts THREE suggestions;
the diagnostic carries two. -/
theorem c8_counterexample :
    (analyze undefVarAst).map (fun e => e.suggestion.length) = [2] := by
  decide

set_option maxHeartbeats 16000000 in
set_option maxRecDepth 16384 in
/-- Claim C9 (amended): `readString` handles `\uHHHH`, `\u\x7b…\x7d` and
the `ESC`-table escapes, but it has NO `\xHH` case: an unknown escape keeps
the escaped character literally, so `"\x41"` lexes to the three-character
string `x41` (the `escChar` table maps `x` to nothing). -/
theorem c9_escapes :
    (tokenizeF 300 "\"\\x41\"").map (fun ts => ts.map (fun t => t.value)) =
      .ok [.str "x41", .nullV] ∧
    (tokenizeF 300 "\"\\u0041\"").map (fun ts => ts.map (fun t => t.value)) =
      .ok [.str "A", .nullV] ∧
    (tokenizeF 300 "\"\\u\x7b48\x7d\"").map (fun ts => ts.map (fun t => t.value)) =
      .ok [.str "H", .nullV] ∧
    (tokenizeF 300 "\"a\\nb\\tc\\\\d\"").map (fun ts => ts.map (fun t => t.value)) =
      .ok [.str "a\nb\tc\\d", .nullV] ∧
    escChar (some 'x') = none := by
  refine ⟨by decide, by decide, by decide, by decide, by decide⟩

set_option maxHeartbeats 16000000 in
set_option maxRecDepth 16384 in
/-- Claim C9, counterexample: the original claim asserts that `"\x41"`
lexes to the one-character string `A`; it lexes to `x41`. -/
theorem c9_counterexample :
    (tokenizeF 300 "\"\\x41\"").map (fun ts => ts.map (fun t => t.value)) =
      .ok [.str "x41", .nullV] ∧ ("x41" == "A") = false := by
  refine ⟨by decide, by decide⟩

set_option maxHeartbeats 16000000 in
set_option maxRecDepth 16384 in
/-- Claim C10: the specification asserts that `tokenize` terminates on
every finite input.  This fails: on the four-character input `"\u\x7b`
(a string whose `\u\x7b…\x7d` escape never finds its closing brace before
the end of input) the scanner loop `while (peek() !== '\x7d') hex +=
advance()` runs forever — past the end `peek()` returns the `'\0'`
sentinel, never `'\x7d'` — so the embedded lexer exhausts EVERY fuel
budget, the standard reading of divergence of the source loop.  On a
well-formed input the token list ends in the EOF sentinel. -/
theorem c10_tokenize_diverges :
    (∀ fuel, tokenizeF fuel "\"\\u\x7b" = .outOfFuel) ∧
    (tokenizeF 300 "\"ok\"").map (fun ts => ts.map (fun t => t.type)) =
      .ok [.stringT, .eof] := by
  constructor
  · intro fuel
    have h : tokenizeLoopF fuel ⟨['"', '\\', 'u', '\x7b'], 0, 1, 1⟩ [] = .outOfFuel :=
      tokenizeLoopF_uBrace_div fuel
    simp only [tokenizeF]
    rw [h]
  · decide


end NTL
